import Mathlib

/-!
# Verification of the chip-8-python CHIP-8 interpreter core

Shallow embedding of `src/src/chip_8.py` (class `Chip8`, version 0.1.1) and of
the ROM-loading endpoint in `src/main.py`.  Python `bytearray`s of fixed length
are modelled as functions `Nat → Nat` holding byte values; Python list/bytearray
indexing that can raise `IndexError` (or an explicit `RuntimeError`) is modelled
by `Option` / an explicit error outcome.  The `NeedKey` exception raised by
`Fx0A` is a distinct outcome.  `random.getrandbits(8)` is modelled by an oracle
stream `rand` with a cursor `randIdx`.
-/

namespace Chip8Py

/-- Pointwise update of a byte-store function (models `arr[k] = v`). -/
def upd (f : Nat → Nat) (k v : Nat) : Nat → Nat :=
  fun a => if a = k then v else f a

/-- Python `(a - b) & 0xFF` on ints: subtraction may be negative, and `& 0xFF`
of a negative Python int is its value modulo 256. -/
def sub8 (a b : Nat) : Nat :=
  (((a : Int) - (b : Int)) % 256).toNat

/-- The canonical 80-byte font installed at 0x050 by `Chip8.__init__`. -/
def font_data : List Nat :=
  [0xF0, 0x90, 0x90, 0x90, 0xF0,
   0x20, 0x60, 0x20, 0x20, 0x70,
   0xF0, 0x10, 0xF0, 0x80, 0xF0,
   0xF0, 0x10, 0xF0, 0x10, 0xF0,
   0x90, 0x90, 0xF0, 0x10, 0x10,
   0xF0, 0x80, 0xF0, 0x10, 0xF0,
   0xF0, 0x80, 0xF0, 0x90, 0xF0,
   0xF0, 0x10, 0x20, 0x40, 0x40,
   0xF0, 0x90, 0xF0, 0x90, 0xF0,
   0xF0, 0x90, 0xF0, 0x10, 0xF0,
   0xF0, 0x90, 0xF0, 0x90, 0x90,
   0xE0, 0x90, 0xE0, 0x90, 0xE0,
   0xF0, 0x80, 0x80, 0x80, 0xF0,
   0xE0, 0x90, 0x90, 0x90, 0xE0,
   0xF0, 0x80, 0xF0, 0x80, 0xF0,
   0xF0, 0x80, 0xF0, 0x80, 0x80]

/-- Machine state of class `Chip8` (`src/src/chip_8.py`).  `mem` has 4096
relevant addresses, `stack` 16 slots, `regs` 16 registers, `screen` 64×32 =
2048 cells, `keypad` 16 keys. -/
structure Chip8 where
  mem : Nat → Nat
  stack : Nat → Nat
  sp : Nat
  dt : Nat
  st : Nat
  pc : Nat
  I : Nat
  regs : Nat → Nat
  screen : Nat → Nat
  keypad : Nat → Bool
  quirk_display_wait : Bool
  quirk_clipping : Bool
  quirk_shifting : Bool
  quirk_load_store : Bool
  waiting_for_draw_sync : Bool
  rand : Nat → Nat
  randIdx : Nat

namespace Chip8

def MEM_SIZE : Nat := 0x1000
def SCREEN_W : Nat := 64
def SCREEN_H : Nat := 32
def FONT_START : Nat := 0x050

/-- `Chip8.__init__`: zeroed state, font copied to 0x050..0x09F, PC = 0x200,
quirk defaults as in the source. -/
def init : Chip8 where
  mem := fun a => if FONT_START ≤ a ∧ a < FONT_START + 80 then font_data.getD (a - FONT_START) 0 else 0
  stack := fun _ => 0
  sp := 0
  dt := 0
  st := 0
  pc := 0x200
  I := 0
  regs := fun _ => 0
  screen := fun _ => 0
  keypad := fun _ => false
  quirk_display_wait := true
  quirk_clipping := true
  quirk_shifting := false
  quirk_load_store := true
  waiting_for_draw_sync := false
  rand := fun _ => 0
  randIdx := 0

/-- Outcome of dispatching one opcode: `ok s cont` is a normal return (the
Python `match_op` returns the boolean `cont`), `needKey vx s` models the
`NeedKey(vx)` exception (state unchanged at raise time), `error` models a
`RuntimeError` / `IndexError`. -/
inductive StepResult where
  | ok (s : Chip8) (cont : Bool)
  | needKey (vx : Nat) (s : Chip8)
  | error
deriving Inhabited

/-- Project the post-state of a normal return. -/
def StepResult.okState : StepResult → Option Chip8
  | .ok s _ => some s
  | _ => none

/- ----------------------------------------------------------------
   Opcode handlers, in source order.
   ---------------------------------------------------------------- -/

/-- 00E0 `op_disp_clear`. -/
def op_disp_clear (s : Chip8) : Chip8 :=
  { s with screen := fun _ => 0 }

/-- 00EE `op_ret_from_subroutine`; raises on stack underflow. -/
def op_ret_from_subroutine (s : Chip8) : Option Chip8 :=
  if s.sp = 0 then none
  else some { s with sp := s.sp - 1, pc := s.stack (s.sp - 1) }

/-- 1nnn `op_jump_to_addr`. -/
def op_jump_to_addr (s : Chip8) (nnn : Nat) : Chip8 :=
  { s with pc := nnn &&& 0xFFF }

/-- 2nnn `op_call_addr`; raises on stack overflow. -/
def op_call_addr (s : Chip8) (nnn : Nat) : Option Chip8 :=
  if s.sp ≥ 16 then none
  else some { s with stack := upd s.stack s.sp s.pc, sp := s.sp + 1, pc := nnn &&& 0xFFF }

/-- 3xnn `op_se_vx_byte`. -/
def op_se_vx_byte (s : Chip8) (vx_idx nn : Nat) : Chip8 :=
  if s.regs vx_idx = nn then { s with pc := (s.pc + 2) &&& 0xFFFF } else s

/-- 4xnn `op_sne_vx_byte`. -/
def op_sne_vx_byte (s : Chip8) (vx_idx nn : Nat) : Chip8 :=
  if s.regs vx_idx ≠ nn then { s with pc := (s.pc + 2) &&& 0xFFFF } else s

/-- 5xy0 `op_se_vx_vy`. -/
def op_se_vx_vy (s : Chip8) (vx_idx vy_idx : Nat) : Chip8 :=
  if s.regs vx_idx = s.regs vy_idx then { s with pc := (s.pc + 2) &&& 0xFFFF } else s

/-- 6xnn `op_ld_vx_byte`. -/
def op_ld_vx_byte (s : Chip8) (vx_idx nn : Nat) : Chip8 :=
  { s with regs := upd s.regs vx_idx (nn &&& 0xFF) }

/-- 7xnn `op_add_vx_byte`. -/
def op_add_vx_byte (s : Chip8) (vx_idx nn : Nat) : Chip8 :=
  { s with regs := upd s.regs vx_idx ((s.regs vx_idx + nn) &&& 0xFF) }

/-- 8xy0 `op_ld_vx_vy`. -/
def op_ld_vx_vy (s : Chip8) (vx_idx vy_idx : Nat) : Chip8 :=
  { s with regs := upd s.regs vx_idx (s.regs vy_idx) }

/-- 8xy1 `op_or_vx_vy` (also clears VF, as the source does). -/
def op_or_vx_vy (s : Chip8) (vx_idx vy_idx : Nat) : Chip8 :=
  let s1 := { s with regs := upd s.regs vx_idx (s.regs vx_idx ||| s.regs vy_idx) }
  { s1 with regs := upd s1.regs 0xF 0 }

/-- 8xy2 `op_and_vx_vy`. -/
def op_and_vx_vy (s : Chip8) (vx_idx vy_idx : Nat) : Chip8 :=
  let s1 := { s with regs := upd s.regs vx_idx (s.regs vx_idx &&& s.regs vy_idx) }
  { s1 with regs := upd s1.regs 0xF 0 }

/-- 8xy3 `op_xor_vx_vy`. -/
def op_xor_vx_vy (s : Chip8) (vx_idx vy_idx : Nat) : Chip8 :=
  let s1 := { s with regs := upd s.regs vx_idx (s.regs vx_idx ^^^ s.regs vy_idx) }
  { s1 with regs := upd s1.regs 0xF 0 }

/-- 8xy4 `op_add_vx_vy`: sum mod 256 first, VF = carry afterwards. -/
def op_add_vx_vy (s : Chip8) (vx_idx vy_idx : Nat) : Chip8 :=
  let total := s.regs vx_idx + s.regs vy_idx
  let s1 := { s with regs := upd s.regs vx_idx (total &&& 0xFF) }
  { s1 with regs := upd s1.regs 0xF (if total > 0xFF then 1 else 0) }

/-- 8xy5 `op_sub_vx_vy`: VF = (Vx > Vy), result written first, flag second. -/
def op_sub_vx_vy (s : Chip8) (vx_idx vy_idx : Nat) : Chip8 :=
  let vx_val := s.regs vx_idx
  let vy_val := s.regs vy_idx
  let flag_value := if vx_val > vy_val then 1 else 0
  let s1 := { s with regs := upd s.regs vx_idx (sub8 vx_val vy_val) }
  { s1 with regs := upd s1.regs 0xF flag_value }

/-- 8xy6 `op_shr_vx`: always sources from Vx; the `quirk_shifting` flag is not
consulted by the source. -/
def op_shr_vx (s : Chip8) (vx_idx : Nat) : Chip8 :=
  let val := s.regs vx_idx
  let lsb := val &&& 0x1
  let s1 := { s with regs := upd s.regs vx_idx ((val >>> 1) &&& 0xFF) }
  { s1 with regs := upd s1.regs 0xF lsb }

/-- 8xy7 `op_subn_vx_vy`: VF = (Vy ≥ Vx). -/
def op_subn_vx_vy (s : Chip8) (vx_idx vy_idx : Nat) : Chip8 :=
  let vx_val := s.regs vx_idx
  let vy_val := s.regs vy_idx
  let flag_value := if vy_val ≥ vx_val then 1 else 0
  let s1 := { s with regs := upd s.regs vx_idx (sub8 vy_val vx_val) }
  { s1 with regs := upd s1.regs 0xF flag_value }

/-- 8xyE `op_shl_vx`: always sources from Vx; the `quirk_shifting` flag is not
consulted by the source. -/
def op_shl_vx (s : Chip8) (vx_idx : Nat) : Chip8 :=
  let val := s.regs vx_idx
  let msb := (val >>> 7) &&& 0x1
  let s1 := { s with regs := upd s.regs vx_idx ((val <<< 1) &&& 0xFF) }
  { s1 with regs := upd s1.regs 0xF msb }

/-- 9xy0 `op_sne_vx_vy`. -/
def op_sne_vx_vy (s : Chip8) (vx_idx vy_idx : Nat) : Chip8 :=
  if s.regs vx_idx ≠ s.regs vy_idx then { s with pc := (s.pc + 2) &&& 0xFFFF } else s

/-- Annn `op_ld_i_addr`. -/
def op_ld_i_addr (s : Chip8) (nnn : Nat) : Chip8 :=
  { s with I := nnn &&& 0xFFF }

/-- Bnnn `op_jump_v0_addr`. -/
def op_jump_v0_addr (s : Chip8) (nnn : Nat) : Chip8 :=
  { s with pc := (nnn + s.regs 0) &&& 0xFFF }

/-- Cxnn `op_rnd_vx`: `random.getrandbits(8)` is modelled by reading the next
byte of the oracle stream. -/
def op_rnd_vx (s : Chip8) (vx_idx nn : Nat) : Chip8 :=
  let rnd := s.rand s.randIdx % 256
  { s with regs := upd s.regs vx_idx (rnd &&& nn), randIdx := s.randIdx + 1 }

/-- The screen-buffer write at the heart of `op_drw_vx_vy_n`: bounds guard,
collision check (`VF = 1`) before drawing, then XOR the pixel. -/
def togglePixel (s : Chip8) (idx : Nat) : Chip8 :=
  if idx < SCREEN_W * SCREEN_H then
    if s.screen idx = 1 then
      { s with regs := upd s.regs 0xF 1, screen := upd s.screen idx (s.screen idx ^^^ 1) }
    else
      { s with screen := upd s.screen idx (s.screen idx ^^^ 1) }
  else s

/-- One bit `b` of a sprite row in `op_drw_vx_vy_n`: skip unset bits, clip or
wrap the X coordinate `base_x + b`, then toggle. -/
def drawBit (s : Chip8) (base_x final_y sprite_byte b : Nat) : Chip8 :=
  if (sprite_byte >>> (7 - b)) &&& 1 = 1 then
    if s.quirk_clipping then
      if base_x + b ≥ SCREEN_W then s
      else togglePixel s (final_y * SCREEN_W + (base_x + b))
    else togglePixel s (final_y * SCREEN_W + (base_x + b) % SCREEN_W)
  else s

/-- The inner `for b in range(8)` loop of `op_drw_vx_vy_n`. -/
def drawRow (s : Chip8) (base_x final_y sprite_byte : Nat) : Chip8 :=
  (List.range 8).foldl (fun t b => drawBit t base_x final_y sprite_byte b) s

/-- The outer `for r in range(n)` loop of `op_drw_vx_vy_n`, rows `r` to `n-1`.
The sprite byte is `t.mem (i + r)`; reading past 0xFFF raises `IndexError`
(`none`).  In clipping mode a row whose Y coordinate `base_y + r` is off
screen is skipped whole; otherwise Y wraps. -/
def drawRows (base_x base_y i : Nat) (t : Chip8) (r n : Nat) : Option Chip8 :=
  if h : r < n then
    if i + r < MEM_SIZE then
      drawRows base_x base_y i
        (if t.quirk_clipping then
           if base_y + r ≥ SCREEN_H then t
           else drawRow t base_x (base_y + r) (t.mem (i + r))
         else drawRow t base_x ((base_y + r) % SCREEN_H) (t.mem (i + r)))
        (r + 1) n
    else none
  else some t
termination_by n - r

/-- Dxyn `op_drw_vx_vy_n`: wrap base coordinates (`Vx mod 64`, `Vy mod 32`,
read before VF is cleared), clear VF, draw the rows from I, then set the
draw-sync flag if the display-wait quirk is on. -/
def op_drw_vx_vy_n (s : Chip8) (vx_idx vy_idx n : Nat) : Option Chip8 :=
  (drawRows (s.regs vx_idx % SCREEN_W) (s.regs vy_idx % SCREEN_H) s.I
      { s with regs := upd s.regs 0xF 0 } 0 n).map fun t =>
    if t.quirk_display_wait then { t with waiting_for_draw_sync := true } else t

/-- Ex9E `op_skp_vx`: `self.keypad[key]` on a 16-element Python list raises
`IndexError` when `key ≥ 16`. -/
def op_skp_vx (s : Chip8) (vx_idx : Nat) : Option Chip8 :=
  let key := s.regs vx_idx
  if key < 16 then
    if s.keypad key then some { s with pc := (s.pc + 2) &&& 0xFFFF } else some s
  else none

/-- ExA1 `op_sknp_vx`; same `IndexError` behaviour as `op_skp_vx`. -/
def op_sknp_vx (s : Chip8) (vx_idx : Nat) : Option Chip8 :=
  let key := s.regs vx_idx
  if key < 16 then
    if s.keypad key then some s else some { s with pc := (s.pc + 2) &&& 0xFFFF }
  else none

/-- Fx07 `op_ld_vx_dt`. -/
def op_ld_vx_dt (s : Chip8) (vx_idx : Nat) : Chip8 :=
  { s with regs := upd s.regs vx_idx s.dt }

/-- The `for idx, pressed in enumerate(self.keypad)` scan of `op_ld_vx_k`:
first pressed index in `idx, idx+1, ..., idx+fuel-1`, if any. -/
def firstPressed (keypad : Nat → Bool) (idx fuel : Nat) : Option Nat :=
  match fuel with
  | 0 => none
  | fuel' + 1 => if keypad idx then some idx else firstPressed keypad (idx + 1) fuel'

/-- Fx0A `op_ld_vx_k`: store the lowest pressed key if any, otherwise raise
`NeedKey(vx_idx)` leaving the state untouched. -/
def op_ld_vx_k (s : Chip8) (vx_idx : Nat) : StepResult :=
  match firstPressed s.keypad 0 16 with
  | some idx => .ok { s with regs := upd s.regs vx_idx idx } true
  | none => .needKey vx_idx s

/-- Fx15 `op_ld_dt_vx`. -/
def op_ld_dt_vx (s : Chip8) (vx_idx : Nat) : Chip8 :=
  { s with dt := s.regs vx_idx &&& 0xFF }

/-- Fx18 `op_ld_st_vx`. -/
def op_ld_st_vx (s : Chip8) (vx_idx : Nat) : Chip8 :=
  { s with st := s.regs vx_idx &&& 0xFF }

/-- Fx1E `op_add_i_vx`. -/
def op_add_i_vx (s : Chip8) (vx_idx : Nat) : Chip8 :=
  { s with I := (s.I + s.regs vx_idx) &&& 0xFFF }

/-- Fx29 `op_ld_f_vx`: `I = FONT_START + regs[vx] * 5`, with no masking of the
register value. -/
def op_ld_f_vx (s : Chip8) (vx_idx : Nat) : Chip8 :=
  { s with I := FONT_START + s.regs vx_idx * 5 }

/-- Fx33 `op_ld_b_vx`: BCD of Vx at `I, I+1, I+2`; a write past 0xFFF raises
`IndexError`. -/
def op_ld_b_vx (s : Chip8) (vx_idx : Nat) : Option Chip8 :=
  if s.I + 2 < MEM_SIZE then
    let n := s.regs vx_idx
    let hund := n / 100 % 10
    let tens := n / 10 % 10
    let ones := n % 10
    some { s with mem := upd (upd (upd s.mem s.I hund) (s.I + 1) tens) (s.I + 2) ones }
  else none

/-- The `for i in range(x+1)` loop of Fx55: `mem[I + i] = regs[i]`. -/
def store_regs_loop (s : Chip8) (x : Nat) : Chip8 :=
  (List.range (x + 1)).foldl (fun t i => { t with mem := upd t.mem (t.I + i) (t.regs i) }) s

/-- Fx55 `op_ld_i_vx`: explicit overflow guard, then copy V0..Vx to
`mem[I..I+x]`, then advance I (the source always advances). -/
def op_ld_i_vx (s : Chip8) (x : Nat) : Option Chip8 :=
  if s.I + x ≥ MEM_SIZE then none
  else
    let s1 := store_regs_loop s x
    some { s1 with I := (s1.I + x + 1) &&& 0xFFF }

/-- The `for i in range(x+1)` loop of Fx65: `regs[i] = mem[I + i]`. -/
def load_regs_loop (s : Chip8) (x : Nat) : Chip8 :=
  (List.range (x + 1)).foldl (fun t i => { t with regs := upd t.regs i (t.mem (t.I + i)) }) s

/-- Fx65 `op_ld_vx_i`: copy `mem[I..I+x]` to V0..Vx (a read past 0xFFF raises
`IndexError`), then advance I. -/
def op_ld_vx_i (s : Chip8) (x : Nat) : Option Chip8 :=
  if s.I + x < MEM_SIZE then
    let s1 := load_regs_loop s x
    some { s1 with I := (s1.I + x + 1) &&& 0xFFF }
  else none

/-- Lift an `Option`-valued handler into a `StepResult` (Python exceptions
propagate out of `match_op`). -/
def liftOpt (r : Option Chip8) : StepResult :=
  match r with
  | some s => .ok s true
  | none => .error

/-- `Chip8.match_op`: nibble extraction and dispatch.  Every recognized family
returns `True` (continue); unknown encodings are silent no-ops.  There is no
halt check in this version of the interpreter. -/
def match_op (s : Chip8) (op : Nat) : StepResult :=
  let n1 := (op &&& 0xF000) >>> 12
  let n2 := (op &&& 0x0F00) >>> 8
  let n3 := (op &&& 0x00F0) >>> 4
  let n4 := op &&& 0x000F
  let nnn := op &&& 0x0FFF
  let nn := op &&& 0x00FF
  if n1 = 0 then
    if op = 0x00E0 then .ok (op_disp_clear s) true
    else if op = 0x00EE then liftOpt (op_ret_from_subroutine s)
    else .ok s true
  else if n1 = 1 then .ok (op_jump_to_addr s nnn) true
  else if n1 = 2 then liftOpt (op_call_addr s nnn)
  else if n1 = 3 then .ok (op_se_vx_byte s n2 nn) true
  else if n1 = 4 then .ok (op_sne_vx_byte s n2 nn) true
  else if n1 = 5 then .ok (op_se_vx_vy s n2 n3) true
  else if n1 = 6 then .ok (op_ld_vx_byte s n2 nn) true
  else if n1 = 7 then .ok (op_add_vx_byte s n2 nn) true
  else if n1 = 8 then
    if n4 = 0 then .ok (op_ld_vx_vy s n2 n3) true
    else if n4 = 1 then .ok (op_or_vx_vy s n2 n3) true
    else if n4 = 2 then .ok (op_and_vx_vy s n2 n3) true
    else if n4 = 3 then .ok (op_xor_vx_vy s n2 n3) true
    else if n4 = 4 then .ok (op_add_vx_vy s n2 n3) true
    else if n4 = 5 then .ok (op_sub_vx_vy s n2 n3) true
    else if n4 = 6 then .ok (op_shr_vx s n2) true
    else if n4 = 7 then .ok (op_subn_vx_vy s n2 n3) true
    else if n4 = 14 then .ok (op_shl_vx s n2) true
    else .ok s true
  else if n1 = 9 then .ok (op_sne_vx_vy s n2 n3) true
  else if n1 = 10 then .ok (op_ld_i_addr s nnn) true
  else if n1 = 11 then .ok (op_jump_v0_addr s nnn) true
  else if n1 = 12 then .ok (op_rnd_vx s n2 nn) true
  else if n1 = 13 then liftOpt (op_drw_vx_vy_n s n2 n3 n4)
  else if n1 = 14 then
    if nn = 0x9E then liftOpt (op_skp_vx s n2)
    else if nn = 0xA1 then liftOpt (op_sknp_vx s n2)
    else .ok s true
  else if n1 = 15 then
    if nn = 0x07 then .ok (op_ld_vx_dt s n2) true
    else if nn = 0x0A then op_ld_vx_k s n2
    else if nn = 0x15 then .ok (op_ld_dt_vx s n2) true
    else if nn = 0x18 then .ok (op_ld_st_vx s n2) true
    else if nn = 0x1E then .ok (op_add_i_vx s n2) true
    else if nn = 0x29 then .ok (op_ld_f_vx s n2) true
    else if nn = 0x33 then liftOpt (op_ld_b_vx s n2)
    else if nn = 0x55 then liftOpt (op_ld_i_vx s n2)
    else if nn = 0x65 then liftOpt (op_ld_vx_i s n2)
    else .ok s true
  else .ok s true

/-- `Chip8.fetch`: big-endian 16-bit read at PC, PC += 2 mod 0x10000; a read
past 0xFFF raises `IndexError`. -/
def fetch (s : Chip8) : Option (Nat × Chip8) :=
  if s.pc + 1 < MEM_SIZE then
    some ((s.mem s.pc <<< 8) ||| s.mem (s.pc + 1), { s with pc := (s.pc + 2) &&& 0xFFFF })
  else none

/-- `Chip8.step`: fetch then dispatch. -/
def step (s : Chip8) : StepResult :=
  match fetch s with
  | some (op, s1) => match_op s1 op
  | none => .error

/-- A successful `step` (returns normally; continue flag discarded). -/
def stepOk (s : Chip8) : Option Chip8 :=
  (step s).okState

end Chip8

/-- Outcome of the `/load` endpoint in `src/main.py`. -/
inductive LoadResult where
  | loaded (s : Chip8)
  | rom_empty
  | rom_too_large

/-- Project the machine of a successful load. -/
def LoadResult.loadedState : LoadResult → Option Chip8
  | .loaded s => some s
  | _ => none

namespace Main

/-- `load_rom` in `src/main.py`: reject empty then oversized data, otherwise
reset the machine (fresh `Chip8()`) and copy the ROM to 0x200.. . -/
def load_rom (data : List Nat) : LoadResult :=
  if data.length = 0 then .rom_empty
  else if data.length > Chip8.MEM_SIZE - 0x200 then .rom_too_large
  else .loaded { Chip8.init with
    mem := fun a =>
      if 0x200 ≤ a ∧ a < 0x200 + data.length then data.getD (a - 0x200) 0
      else Chip8.init.mem a }

end Main

/- ----------------------------------------------------------------
   Concrete machine states used by counterexamples and witnesses.
   ---------------------------------------------------------------- -/

/-- Fresh machine with the shifting quirk enabled and V0 = 2, V1 = 5. -/
def shiftState : Chip8 :=
  { Chip8.init with
    quirk_shifting := true
    regs := fun i => if i = 0 then 2 else if i = 1 then 5 else 0 }

/-- Fresh machine with V0 = 16 (an out-of-keypad-range key value). -/
def keyOverState : Chip8 :=
  { Chip8.init with regs := fun i => if i = 0 then 16 else 0 }

/-- Fresh machine with every register equal to 16 (out of font-digit range). -/
def fontState : Chip8 :=
  { Chip8.init with regs := fun _ => 16 }

/-- Fresh machine with only key 3 pressed. -/
def keyPressedState : Chip8 :=
  { Chip8.init with keypad := fun i => i == 3 }

/-- Fresh machine with I = 0x300 and V0, V1, V2 = 7, 11, 13. -/
def regsProfileState : Chip8 :=
  { Chip8.init with
    I := 0x300
    regs := fun i => if i = 0 then 7 else if i = 1 then 11 else if i = 2 then 13 else 0 }

/-- Fresh machine prepared for drawing: V0 = 64, V1 = 0, V2 = 63, and a
one-byte sprite 0x80 at I = 0x300. -/
def drawState : Chip8 :=
  { Chip8.init with
    I := 0x300
    mem := fun a => if a = 0x300 then 0x80 else Chip8.init.mem a
    regs := fun i => if i = 0 then 64 else if i = 2 then 63 else 0 }

/-- What one sprite-drawing step may change: only the screen (each cell at most
toggled), the collision flag VF, and nothing else. -/
structure DrawFrame (s t : Chip8) : Prop where
  mem_eq : t.mem = s.mem
  stack_eq : t.stack = s.stack
  sp_eq : t.sp = s.sp
  dt_eq : t.dt = s.dt
  st_eq : t.st = s.st
  pc_eq : t.pc = s.pc
  I_eq : t.I = s.I
  keypad_eq : t.keypad = s.keypad
  qdw_eq : t.quirk_display_wait = s.quirk_display_wait
  qc_eq : t.quirk_clipping = s.quirk_clipping
  qs_eq : t.quirk_shifting = s.quirk_shifting
  qls_eq : t.quirk_load_store = s.quirk_load_store
  wait_eq : t.waiting_for_draw_sync = s.waiting_for_draw_sync
  rand_eq : t.rand = s.rand
  randIdx_eq : t.randIdx = s.randIdx
  regs_eq : ∀ j, j ≠ 0xF → t.regs j = s.regs j
  vf_cases : t.regs 0xF = 0 ∨ t.regs 0xF = 1 ∨ t.regs 0xF = s.regs 0xF
  screen_cases : ∀ p, t.screen p = s.screen p ∨ t.screen p = s.screen p ^^^ 1

/-- The machine-width invariant of §3/§8 of the spec: registers are bytes,
I is 12-bit, PC and stack slots 16-bit, SP at most 16, timers bytes, memory
cells bytes, framebuffer cells 0/1. -/
structure WidthInv (s : Chip8) : Prop where
  regs_le : ∀ i, i < 16 → s.regs i ≤ 255
  I_le : s.I ≤ 0xFFF
  pc_le : s.pc ≤ 0xFFFF
  sp_le : s.sp ≤ 16
  dt_le : s.dt ≤ 255
  st_le : s.st ≤ 255
  stack_le : ∀ i, i < 16 → s.stack i ≤ 0xFFFF
  mem_le : ∀ a, a < 4096 → s.mem a ≤ 255
  screen_bit : ∀ p, p < 2048 → s.screen p = 0 ∨ s.screen p = 1

end Chip8Py

namespace Chip8Py

open Chip8

/- ----------------------------------------------------------------
   Generic helper lemmas.
   ---------------------------------------------------------------- -/

theorem upd_self (f : Nat → Nat) (k v : Nat) : upd f k v k = v := by
  simp [upd]

theorem upd_other (f : Nat → Nat) (k v a : Nat) (h : a ≠ k) : upd f k v a = f a := by
  simp [upd, h]

theorem sub8_le (a b : Nat) : sub8 a b ≤ 255 := by
  unfold sub8
  have h1 : (0 : Int) ≤ ((a : Int) - b) % 256 :=
    Int.emod_nonneg _ (by norm_num)
  have h2 : ((a : Int) - b) % 256 < 256 :=
    Int.emod_lt_of_pos _ (by norm_num)
  omega

/- ----------------------------------------------------------------
   C5: the 0xFFFF halt sentinel.
   ---------------------------------------------------------------- -/

/-- C5: in `src/src/chip_8.py` (the interpreter that `src/main.py` drives),
`match_op` executes opcode 0xFFFF as an ordinary silent no-op and returns
`True` (continue): no halt condition is ever reported, so the scheduler's
`{status: halted}` branch is unreachable.  This contradicts the claim, which
describes the halt check present only in the older `src/src/chip-8.py`. -/
theorem C5_ffff_is_noop (s : Chip8) : Chip8.match_op s 0xFFFF = .ok s true := rfl

/- ----------------------------------------------------------------
   C6: Fx29 font addressing.
   ---------------------------------------------------------------- -/

/-- C6 counterexample: with V0 = 16, `op_ld_f_vx` sets I = 0x050 + 16·5 = 160,
not FONT_BASE + (16 & 0xF)·5 = 0x050, so the claim's masking does not happen
and I does not land on any of the sixteen font sprites (which end at 0x09F). -/
theorem C6_no_masking_counterexample :
    (Chip8.op_ld_f_vx fontState 0).I = 160 ∧
    (Chip8.op_ld_f_vx fontState 0).I ≠ Chip8.FONT_START + (16 &&& 0xF) * 5 ∧
    ¬ (Chip8.op_ld_f_vx fontState 0).I < 0xA0 := by
  refine ⟨rfl, by decide, by decide⟩

/-- C6 (amended): Fx29 sets I to FONT_START + Vx·5 with no masking of Vx, and
changes nothing else; consequently I lands on the first byte of a canonical
font sprite exactly for Vx ≤ 15. -/
theorem C6_font_addressing (s : Chip8) (x : Nat) :
    (Chip8.op_ld_f_vx s x).I = Chip8.FONT_START + s.regs x * 5 ∧
    (Chip8.op_ld_f_vx s x).pc = s.pc ∧
    (Chip8.op_ld_f_vx s x).regs = s.regs ∧
    (Chip8.op_ld_f_vx s x).mem = s.mem ∧
    (Chip8.op_ld_f_vx s x).screen = s.screen ∧
    (s.regs x ≤ 15 → ∃ d, d ≤ 15 ∧ (Chip8.op_ld_f_vx s x).I = Chip8.FONT_START + d * 5) := by
  exact ⟨rfl, rfl, rfl, rfl, rfl, fun h => ⟨s.regs x, h, rfl⟩⟩

/-- Witness for C6: at the fresh machine with V0 = 0 the hypothesis Vx ≤ 15
holds and I lands on a font sprite. -/
theorem C6_font_addressing_witness :
    Chip8.init.regs 0 ≤ 15 ∧
    ∃ d, d ≤ 15 ∧ (Chip8.op_ld_f_vx Chip8.init 0).I = Chip8.FONT_START + d * 5 :=
  ⟨by decide, (C6_font_addressing Chip8.init 0).2.2.2.2.2 (by decide)⟩

/- ----------------------------------------------------------------
   C4: the shifting quirk.
   ---------------------------------------------------------------- -/

/-- C4 counterexample: with the shifting quirk enabled, V0 = 2, V1 = 5,
opcode 0x8016 (SHR V0 {, V1}) leaves V0 = 2 >> 1 = 1 and VF = 2 & 1 = 0; the
claim predicts V0 = V1 >> 1 = 2 and VF = V1 & 1 = 1.  The handlers never
consult `quirk_shifting`. -/
theorem C4_shifting_counterexample :
    shiftState.quirk_shifting = true ∧
    (Chip8.match_op shiftState 0x8016).okState.map (fun t => (t.regs 0, t.regs 0xF))
      = some (1, 0) ∧
    ¬ ((1 : Nat) = 5 >>> 1 ∧ (0 : Nat) = 5 &&& 1) := by
  refine ⟨rfl, rfl, by decide⟩

/-- C4 (amended): 8xy6 and 8xyE always take their source from Vx, whatever the
value of the shifting quirk flag: after 8xy6, VF = Vx & 1 and (for x ≠ F)
Vx = (Vx >> 1) & 0xFF; after 8xyE, VF = (Vx >> 7) & 1 and (for x ≠ F)
Vx = (Vx << 1) & 0xFF; no other register, PC, I or memory changes. -/
theorem C4_shift_always_vx (s : Chip8) (x : Nat) :
    ((Chip8.op_shr_vx s x).regs 0xF = s.regs x &&& 1) ∧
    (x ≠ 0xF → (Chip8.op_shr_vx s x).regs x = (s.regs x >>> 1) &&& 0xFF) ∧
    (∀ j, j ≠ x → j ≠ 0xF → (Chip8.op_shr_vx s x).regs j = s.regs j) ∧
    (Chip8.op_shr_vx s x).pc = s.pc ∧
    (Chip8.op_shr_vx s x).I = s.I ∧
    (Chip8.op_shr_vx s x).mem = s.mem ∧
    ((Chip8.op_shl_vx s x).regs 0xF = (s.regs x >>> 7) &&& 1) ∧
    (x ≠ 0xF → (Chip8.op_shl_vx s x).regs x = (s.regs x <<< 1) &&& 0xFF) ∧
    (∀ j, j ≠ x → j ≠ 0xF → (Chip8.op_shl_vx s x).regs j = s.regs j) := by
  refine ⟨?_, ?_, ?_, rfl, rfl, rfl, ?_, ?_, ?_⟩
  · simp [op_shr_vx, upd]
  · intro hx
    simp [op_shr_vx, upd, hx]
  · intro j hjx hjF
    simp [op_shr_vx, upd, hjx, hjF]
  · simp [op_shl_vx, upd]
  · intro hx
    simp [op_shl_vx, upd, hx]
  · intro j hjx hjF
    simp [op_shl_vx, upd, hjx, hjF]

/-- Witness for C4: at `shiftState` (quirk enabled) with x = 0 the amended
theorem applies and gives V0 = (V0 >> 1) & 0xFF = 1. -/
theorem C4_shift_always_vx_witness :
    (0 : Nat) ≠ 0xF ∧ (Chip8.op_shr_vx shiftState 0).regs 0 = (shiftState.regs 0 >>> 1) &&& 0xFF :=
  ⟨by decide, (C4_shift_always_vx shiftState 0).2.1 (by decide)⟩

/- ----------------------------------------------------------------
   C7: Ex9E / ExA1 skip-on-key.
   ---------------------------------------------------------------- -/

/-- C7 counterexample: with V0 = 16, opcode 0xE09E raises `IndexError`
(`self.keypad[16]` on a 16-element list); the claim says every Vx value,
including 16 or more, completes without error using keypad[Vx & 0xF]. -/
theorem C7_key_index_counterexample :
    keyOverState.regs 0 = 16 ∧ Chip8.match_op keyOverState 0xE09E = .error := by
  exact ⟨rfl, rfl⟩

/-- C7 (amended): for Vx ≤ 15, Ex9E completes and adds 2 to PC exactly when
keypad[Vx] is pressed, and ExA1 exactly when it is not (the register value is
used unmasked); for Vx ≥ 16 both handlers raise IndexError instead of
completing. -/
theorem C7_skip_on_key (s : Chip8) (x : Nat) :
    (s.regs x < 16 →
      Chip8.op_skp_vx s x =
        some (if s.keypad (s.regs x) then { s with pc := (s.pc + 2) &&& 0xFFFF } else s) ∧
      Chip8.op_sknp_vx s x =
        some (if s.keypad (s.regs x) then s else { s with pc := (s.pc + 2) &&& 0xFFFF })) ∧
    (16 ≤ s.regs x →
      Chip8.op_skp_vx s x = none ∧ Chip8.op_sknp_vx s x = none) := by
  constructor
  · intro hlt
    constructor
    · simp only [op_skp_vx, if_pos hlt]
      by_cases hk : s.keypad (s.regs x) <;> simp [hk]
    · simp only [op_sknp_vx, if_pos hlt]
      by_cases hk : s.keypad (s.regs x) <;> simp [hk]
  · intro hge
    have : ¬ s.regs x < 16 := by omega
    exact ⟨by simp [op_skp_vx, this], by simp [op_sknp_vx, this]⟩

/-- Witness for C7: at the fresh machine (V0 = 0, no key pressed) Ex9E leaves
the state unchanged. -/
theorem C7_skip_on_key_witness :
    Chip8.init.regs 0 < 16 ∧ Chip8.op_skp_vx Chip8.init 0 = some Chip8.init := by
  refine ⟨by decide, ?_⟩
  have h := (C7_skip_on_key Chip8.init 0).1 (by decide)
  simpa using h.1

/- ----------------------------------------------------------------
   C9: ROM loading (`/load` endpoint in `src/main.py`).
   ---------------------------------------------------------------- -/

/-- C9: loading fails with ROM_TOO_LARGE exactly when L > 3584, with ROM_EMPTY
exactly when L = 0, and otherwise succeeds on a freshly reset machine, copying
the bytes to 0x200..0x200+L with PC = 0x200. -/
theorem C9_load_rom (data : List Nat) :
    (Main.load_rom data = .rom_too_large ↔ data.length > 3584) ∧
    (Main.load_rom data = .rom_empty ↔ data.length = 0) ∧
    (data.length ≠ 0 → data.length ≤ 3584 →
      ∃ s, Main.load_rom data = .loaded s ∧ s.pc = 0x200 ∧
        ∀ k, k < data.length → s.mem (0x200 + k) = data.getD k 0) := by
  have hms : Chip8.MEM_SIZE - 0x200 = 3584 := rfl
  refine ⟨?_, ?_, ?_⟩
  · unfold Main.load_rom
    rw [hms]
    split_ifs with h0 h1
    · simp [h0]
    · simp [h1]
    · simp only [gt_iff_lt]
      constructor
      · intro h
        exact absurd h (by simp)
      · intro h
        omega
  · unfold Main.load_rom
    rw [hms]
    split_ifs with h0 h1
    · simp [h0]
    · constructor
      · intro h
        exact absurd h (by simp)
      · intro h
        exact absurd h h0
    · constructor
      · intro h
        exact absurd h (by simp)
      · intro h
        exact absurd h h0
  · intro h0 h1
    unfold Main.load_rom
    rw [hms, if_neg h0, if_neg (by omega)]
    refine ⟨_, rfl, rfl, ?_⟩
    intro k hk
    have hcond : 0x200 ≤ 0x200 + k ∧ 0x200 + k < 0x200 + data.length := by omega
    have hsub : 0x200 + k - 0x200 = k := by omega
    simp only [if_pos hcond, hsub]

/-- Witness for C9: the one-byte ROM [0x42] loads successfully with PC = 0x200
and the byte copied to 0x200. -/
theorem C9_load_rom_witness :
    ([0x42] : List Nat).length ≠ 0 ∧ ([0x42] : List Nat).length ≤ 3584 ∧
    ∃ s, Main.load_rom [0x42] = .loaded s ∧ s.pc = 0x200 ∧
      ∀ k, k < ([0x42] : List Nat).length → s.mem (0x200 + k) = ([0x42] : List Nat).getD k 0 :=
  ⟨by decide, by decide, (C9_load_rom [0x42]).2.2 (by decide) (by decide)⟩

/- ----------------------------------------------------------------
   C10: Fx0A wait-for-key.
   ---------------------------------------------------------------- -/

theorem firstPressed_some_spec (kp : Nat → Bool) :
    ∀ fuel idx k, firstPressed kp idx fuel = some k →
      idx ≤ k ∧ k < idx + fuel ∧ kp k = true ∧ ∀ j, idx ≤ j → j < k → kp j = false := by
  intro fuel
  induction fuel with
  | zero =>
    intro idx k h
    simp [firstPressed] at h
  | succ f ih =>
    intro idx k h
    cases hk : kp idx with
    | true =>
      rw [firstPressed, if_pos hk] at h
      obtain rfl : idx = k := by simpa using h
      exact ⟨Nat.le_refl _, by omega, hk, fun j hj1 hj2 => absurd (Nat.lt_of_le_of_lt hj1 hj2) (Nat.lt_irrefl _)⟩
    | false =>
      rw [firstPressed, if_neg (by simp [hk])] at h
      obtain ⟨h1, h2, h3, h4⟩ := ih (idx + 1) k h
      refine ⟨by omega, by omega, h3, ?_⟩
      intro j hj1 hj2
      rcases Nat.eq_or_lt_of_le hj1 with heq | hlt
      · exact heq ▸ hk
      · exact h4 j hlt hj2

theorem firstPressed_none_spec (kp : Nat → Bool) :
    ∀ fuel idx, firstPressed kp idx fuel = none →
      ∀ j, idx ≤ j → j < idx + fuel → kp j = false := by
  intro fuel
  induction fuel with
  | zero =>
    intro idx _ j hj1 hj2
    omega
  | succ f ih =>
    intro idx h j hj1 hj2
    cases hk : kp idx with
    | true => rw [firstPressed, if_pos hk] at h; exact absurd h (by simp)
    | false =>
      rw [firstPressed, if_neg (by simp [hk])] at h
      rcases Nat.eq_or_lt_of_le hj1 with heq | hlt
      · exact heq ▸ hk
      · exact ih (idx + 1) h j hlt (by omega)

/-- C10: Fx0A does not block when a key is pressed: it writes the lowest
pressed key index into Vx and changes nothing else; it raises `NeedKey`
exactly when no key is pressed, leaving the state (hence every register)
unchanged. -/
theorem C10_fx0a_wait_key (s : Chip8) (x : Nat) :
    ((∃ i, i < 16 ∧ s.keypad i = true) →
      ∃ k, k < 16 ∧ s.keypad k = true ∧ (∀ j, j < k → s.keypad j = false) ∧
        Chip8.op_ld_vx_k s x = .ok { s with regs := upd s.regs x k } true) ∧
    ((∀ i, i < 16 → s.keypad i = false) →
      Chip8.op_ld_vx_k s x = .needKey x s) := by
  cases hfp : firstPressed s.keypad 0 16 with
  | some k =>
    obtain ⟨-, hk16, hkp, hmin⟩ := firstPressed_some_spec s.keypad 16 0 k hfp
    constructor
    · intro _
      refine ⟨k, by omega, hkp, fun j hj => hmin j (Nat.zero_le j) hj, ?_⟩
      rw [Chip8.op_ld_vx_k, hfp]
    · intro hall
      have := hall k (by omega)
      rw [this] at hkp
      exact absurd hkp (by simp)
  | none =>
    have hall := firstPressed_none_spec s.keypad 16 0 hfp
    constructor
    · rintro ⟨i, hi, hkp⟩
      have := hall i (Nat.zero_le i) (by omega)
      rw [this] at hkp
      exact absurd hkp (by simp)
    · intro _
      rw [Chip8.op_ld_vx_k, hfp]

/-- Witness for C10: with only key 3 pressed, Fx0A with x = 2 writes 3 into V2
immediately. -/
theorem C10_fx0a_wait_key_witness :
    ∃ k, k < 16 ∧ keyPressedState.keypad k = true ∧
      (∀ j, j < k → keyPressedState.keypad j = false) ∧
      Chip8.op_ld_vx_k keyPressedState 2 =
        .ok { keyPressedState with regs := upd keyPressedState.regs 2 k } true :=
  (C10_fx0a_wait_key keyPressedState 2).1 ⟨3, by decide, by decide⟩

/- ----------------------------------------------------------------
   C8: Fx55 / Fx65 round-trip.
   ---------------------------------------------------------------- -/

theorem store_loop_zero (s : Chip8) :
    store_regs_loop s 0 = { s with mem := upd s.mem (s.I + 0) (s.regs 0) } := by
  unfold store_regs_loop
  rfl

theorem store_loop_succ (s : Chip8) (n : Nat) :
    store_regs_loop s (n + 1) =
      { store_regs_loop s n with
        mem := upd (store_regs_loop s n).mem ((store_regs_loop s n).I + (n + 1))
                 ((store_regs_loop s n).regs (n + 1)) } := by
  unfold store_regs_loop
  rw [List.range_succ, List.foldl_append]
  rfl

theorem store_loop_spec (s : Chip8) (x : Nat) :
    (store_regs_loop s x).I = s.I ∧ (store_regs_loop s x).regs = s.regs ∧
    (store_regs_loop s x).pc = s.pc ∧ (store_regs_loop s x).sp = s.sp ∧
    (store_regs_loop s x).stack = s.stack ∧ (store_regs_loop s x).screen = s.screen ∧
    (store_regs_loop s x).dt = s.dt ∧ (store_regs_loop s x).st = s.st ∧
    (∀ i, i < x + 1 → (store_regs_loop s x).mem (s.I + i) = s.regs i) ∧
    (∀ a, (∀ i, i < x + 1 → a ≠ s.I + i) → (store_regs_loop s x).mem a = s.mem a) := by
  induction x with
  | zero =>
    rw [store_loop_zero]
    refine ⟨rfl, rfl, rfl, rfl, rfl, rfl, rfl, rfl, ?_, ?_⟩
    · intro i hi
      obtain rfl : i = 0 := by omega
      exact upd_self _ _ _
    · intro a ha
      exact upd_other _ _ _ _ (ha 0 (by omega))
  | succ n ih =>
    obtain ⟨hI, hregs, hpc, hsp, hstack, hscreen, hdt, hst, hin, hout⟩ := ih
    rw [store_loop_succ]
    refine ⟨hI, hregs, hpc, hsp, hstack, hscreen, hdt, hst, ?_, ?_⟩
    · intro i hi
      show upd (store_regs_loop s n).mem ((store_regs_loop s n).I + (n + 1))
            ((store_regs_loop s n).regs (n + 1)) (s.I + i) = s.regs i
      rcases Nat.lt_succ_iff_lt_or_eq.mp (by omega : i < (n + 1) + 1) with hlt | rfl
      · have hne : s.I + i ≠ (store_regs_loop s n).I + (n + 1) := by
          rw [hI]; omega
        rw [upd_other _ _ _ _ hne]
        exact hin i hlt
      · rw [hI, hregs]
        exact upd_self _ _ _
    · intro a ha
      show upd (store_regs_loop s n).mem ((store_regs_loop s n).I + (n + 1))
            ((store_regs_loop s n).regs (n + 1)) a = s.mem a
      have hne : a ≠ (store_regs_loop s n).I + (n + 1) := by
        rw [hI]; exact ha (n + 1) (by omega)
      rw [upd_other _ _ _ _ hne]
      exact hout a (fun i hi => ha i (by omega))

theorem load_loop_zero (s : Chip8) :
    load_regs_loop s 0 = { s with regs := upd s.regs 0 (s.mem (s.I + 0)) } := by
  unfold load_regs_loop
  rfl

theorem load_loop_succ (s : Chip8) (n : Nat) :
    load_regs_loop s (n + 1) =
      { load_regs_loop s n with
        regs := upd (load_regs_loop s n).regs (n + 1)
                 ((load_regs_loop s n).mem ((load_regs_loop s n).I + (n + 1))) } := by
  unfold load_regs_loop
  rw [List.range_succ, List.foldl_append]
  rfl

theorem load_loop_spec (s : Chip8) (x : Nat) :
    (load_regs_loop s x).I = s.I ∧ (load_regs_loop s x).mem = s.mem ∧
    (load_regs_loop s x).pc = s.pc ∧ (load_regs_loop s x).sp = s.sp ∧
    (load_regs_loop s x).stack = s.stack ∧ (load_regs_loop s x).screen = s.screen ∧
    (load_regs_loop s x).dt = s.dt ∧ (load_regs_loop s x).st = s.st ∧
    (∀ i, i < x + 1 → (load_regs_loop s x).regs i = s.mem (s.I + i)) ∧
    (∀ j, (∀ i, i < x + 1 → j ≠ i) → (load_regs_loop s x).regs j = s.regs j) := by
  induction x with
  | zero =>
    rw [load_loop_zero]
    refine ⟨rfl, rfl, rfl, rfl, rfl, rfl, rfl, rfl, ?_, ?_⟩
    · intro i hi
      obtain rfl : i = 0 := by omega
      show upd s.regs 0 (s.mem (s.I + 0)) 0 = s.mem (s.I + 0)
      exact upd_self _ _ _
    · intro j hj
      show upd s.regs 0 (s.mem (s.I + 0)) j = s.regs j
      exact upd_other _ _ _ _ (hj 0 (by omega))
  | succ n ih =>
    obtain ⟨hI, hmem, hpc, hsp, hstack, hscreen, hdt, hst, hin, hout⟩ := ih
    rw [load_loop_succ]
    refine ⟨hI, hmem, hpc, hsp, hstack, hscreen, hdt, hst, ?_, ?_⟩
    · intro i hi
      show upd (load_regs_loop s n).regs (n + 1)
            ((load_regs_loop s n).mem ((load_regs_loop s n).I + (n + 1))) i = s.mem (s.I + i)
      rcases Nat.lt_succ_iff_lt_or_eq.mp (by omega : i < (n + 1) + 1) with hlt | rfl
      · rw [upd_other _ _ _ _ (by omega : i ≠ n + 1)]
        exact hin i hlt
      · rw [hI, hmem]
        exact upd_self _ _ _
    · intro j hj
      show upd (load_regs_loop s n).regs (n + 1)
            ((load_regs_loop s n).mem ((load_regs_loop s n).I + (n + 1))) j = s.regs j
      rw [upd_other _ _ _ _ (hj (n + 1) (by omega))]
      exact hout j (fun i hi => hj i (by omega))

/-- C8: for x ≤ 15 and I + x < 4096, Fx55 then Fx65 from the same I restores
V0..Vx (indeed every register), and each operation advances I by x + 1
(masked to 12 bits); the source performs the load/store increment
unconditionally, so in particular whenever the quirk flag is set. -/
theorem C8_store_load_roundtrip (s : Chip8) (x : Nat)
    (hq : s.quirk_load_store = true) (hx : x ≤ 15) (hI : s.I + x < 4096) :
    ∃ s1 s2, Chip8.op_ld_i_vx s x = some s1 ∧
      s1.I = (s.I + x + 1) &&& 0xFFF ∧
      Chip8.op_ld_vx_i { s1 with I := s.I } x = some s2 ∧
      (∀ i, s2.regs i = s.regs i) ∧
      s2.I = (s.I + x + 1) &&& 0xFFF := by
  obtain ⟨hI1, hregs1, _, _, _, _, _, _, hmem_in, hmem_out⟩ := store_loop_spec s x
  have hguard : ¬ s.I + x ≥ Chip8.MEM_SIZE := by
    have : Chip8.MEM_SIZE = 4096 := rfl
    omega
  set t := store_regs_loop s x with ht
  set s1 : Chip8 := { t with I := (t.I + x + 1) &&& 0xFFF } with hs1
  have hld : Chip8.op_ld_i_vx s x = some s1 := by
    rw [Chip8.op_ld_i_vx, if_neg hguard]
  have hs1I : s1.I = (s.I + x + 1) &&& 0xFFF := by
    simp [hs1, hI1]
  set s1' : Chip8 := { s1 with I := s.I } with hs1'
  have hs1'mem : s1'.mem = t.mem := rfl
  have hs1'regs : s1'.regs = s.regs := by
    simp [hs1', hs1, hregs1]
  obtain ⟨hI2, hmem2, _, _, _, _, _, _, hregs_in, hregs_out⟩ := load_loop_spec s1' x
  have hguard2 : s1'.I + x < Chip8.MEM_SIZE := by
    have h4096 : Chip8.MEM_SIZE = 4096 := rfl
    have : s1'.I = s.I := rfl
    omega
  set u := load_regs_loop s1' x with hu
  set s2 : Chip8 := { u with I := (u.I + x + 1) &&& 0xFFF } with hs2
  have hld2 : Chip8.op_ld_vx_i s1' x = some s2 := by
    rw [Chip8.op_ld_vx_i, if_pos hguard2]
  refine ⟨s1, s2, hld, hs1I, hld2, ?_, ?_⟩
  · intro i
    by_cases hi : i < x + 1
    · calc s2.regs i = u.regs i := rfl
        _ = s1'.mem (s1'.I + i) := hregs_in i hi
        _ = t.mem (s.I + i) := rfl
        _ = s.regs i := hmem_in i hi
    · calc s2.regs i = u.regs i := rfl
        _ = s1'.regs i := hregs_out i (fun k hk => by omega)
        _ = s.regs i := by rw [hs1'regs]
  · calc s2.I = (u.I + x + 1) &&& 0xFFF := rfl
      _ = (s.I + x + 1) &&& 0xFFF := by rw [hI2]

/- ----------------------------------------------------------------
   Dispatch: case analysis on a successful `match_op`.
   ---------------------------------------------------------------- -/

theorem liftOpt_ok {r : Option Chip8} {s' : Chip8} {c : Bool}
    (h : Chip8.liftOpt r = .ok s' c) : r = some s' := by
  cases r with
  | none => exact StepResult.noConfusion h
  | some t =>
    simp only [Chip8.liftOpt] at h
    injection h with h1 h2
    rw [h1]

theorem op_ld_vx_k_ok {s : Chip8} {x : Nat} {s' : Chip8} {c : Bool}
    (h : Chip8.op_ld_vx_k s x = .ok s' c) :
    ∃ idx, firstPressed s.keypad 0 16 = some idx ∧
      s' = { s with regs := upd s.regs x idx } := by
  unfold Chip8.op_ld_vx_k at h
  cases hfp : firstPressed s.keypad 0 16 with
  | some idx =>
    rw [hfp] at h
    injection h with h1 h2
    exact ⟨idx, rfl, h1.symm⟩
  | none =>
    rw [hfp] at h
    exact StepResult.noConfusion h

set_option maxHeartbeats 4000000 in
/-- Case analysis for `match_op s op = ok s' c`: the post-state `s'` arises
from exactly one of the handlers below (or the instruction was a silent
no-op), with the operands decoded from the nibbles of `op`. -/
theorem match_op_ok_elim (s : Chip8) (op : Nat) (s' : Chip8) (c : Bool)
    (h : Chip8.match_op s op = .ok s' c) (P : Prop)
    (h_noop : s' = s → P)
    (h_cls : s' = op_disp_clear s → P)
    (h_ret : op_ret_from_subroutine s = some s' → P)
    (h_jp : s' = op_jump_to_addr s (op &&& 0x0FFF) → P)
    (h_call : op_call_addr s (op &&& 0x0FFF) = some s' → P)
    (h_se : s' = op_se_vx_byte s ((op &&& 0x0F00) >>> 8) (op &&& 0x00FF) → P)
    (h_sne : s' = op_sne_vx_byte s ((op &&& 0x0F00) >>> 8) (op &&& 0x00FF) → P)
    (h_sevv : s' = op_se_vx_vy s ((op &&& 0x0F00) >>> 8) ((op &&& 0x00F0) >>> 4) → P)
    (h_ld : s' = op_ld_vx_byte s ((op &&& 0x0F00) >>> 8) (op &&& 0x00FF) → P)
    (h_add : s' = op_add_vx_byte s ((op &&& 0x0F00) >>> 8) (op &&& 0x00FF) → P)
    (h_ldvv : s' = op_ld_vx_vy s ((op &&& 0x0F00) >>> 8) ((op &&& 0x00F0) >>> 4) → P)
    (h_or : s' = op_or_vx_vy s ((op &&& 0x0F00) >>> 8) ((op &&& 0x00F0) >>> 4) → P)
    (h_and : s' = op_and_vx_vy s ((op &&& 0x0F00) >>> 8) ((op &&& 0x00F0) >>> 4) → P)
    (h_xor : s' = op_xor_vx_vy s ((op &&& 0x0F00) >>> 8) ((op &&& 0x00F0) >>> 4) → P)
    (h_addvv : s' = op_add_vx_vy s ((op &&& 0x0F00) >>> 8) ((op &&& 0x00F0) >>> 4) → P)
    (h_subvv : s' = op_sub_vx_vy s ((op &&& 0x0F00) >>> 8) ((op &&& 0x00F0) >>> 4) → P)
    (h_shr : s' = op_shr_vx s ((op &&& 0x0F00) >>> 8) → P)
    (h_subn : s' = op_subn_vx_vy s ((op &&& 0x0F00) >>> 8) ((op &&& 0x00F0) >>> 4) → P)
    (h_shl : s' = op_shl_vx s ((op &&& 0x0F00) >>> 8) → P)
    (h_snevv : s' = op_sne_vx_vy s ((op &&& 0x0F00) >>> 8) ((op &&& 0x00F0) >>> 4) → P)
    (h_ldi : s' = op_ld_i_addr s (op &&& 0x0FFF) → P)
    (h_jpv0 : s' = op_jump_v0_addr s (op &&& 0x0FFF) → P)
    (h_rnd : s' = op_rnd_vx s ((op &&& 0x0F00) >>> 8) (op &&& 0x00FF) → P)
    (h_drw : op_drw_vx_vy_n s ((op &&& 0x0F00) >>> 8) ((op &&& 0x00F0) >>> 4)
      (op &&& 0x000F) = some s' → P)
    (h_skp : op_skp_vx s ((op &&& 0x0F00) >>> 8) = some s' → P)
    (h_sknp : op_sknp_vx s ((op &&& 0x0F00) >>> 8) = some s' → P)
    (h_ldvdt : s' = op_ld_vx_dt s ((op &&& 0x0F00) >>> 8) → P)
    (h_ldk : (∃ idx, firstPressed s.keypad 0 16 = some idx ∧
      s' = { s with regs := upd s.regs ((op &&& 0x0F00) >>> 8) idx }) → P)
    (h_lddt : s' = op_ld_dt_vx s ((op &&& 0x0F00) >>> 8) → P)
    (h_ldst : s' = op_ld_st_vx s ((op &&& 0x0F00) >>> 8) → P)
    (h_addi : s' = op_add_i_vx s ((op &&& 0x0F00) >>> 8) → P)
    (h_ldf : s' = op_ld_f_vx s ((op &&& 0x0F00) >>> 8) → P)
    (h_ldb : op_ld_b_vx s ((op &&& 0x0F00) >>> 8) = some s' ∧
      (op &&& 0xF000) >>> 12 = 15 ∧ op &&& 0x00FF = 0x33 → P)
    (h_lds : op_ld_i_vx s ((op &&& 0x0F00) >>> 8) = some s' ∧
      (op &&& 0xF000) >>> 12 = 15 ∧ op &&& 0x00FF = 0x55 → P)
    (h_ldvxi : op_ld_vx_i s ((op &&& 0x0F00) >>> 8) = some s' → P) : P := by
  simp only [Chip8.match_op] at h
  have hmlt : (op &&& 0xF000) >>> 12 < 16 := by
    have h1 : op &&& 0xF000 ≤ 0xF000 := Nat.and_le_right
    have h2 : (op &&& 0xF000) >>> 12 = (op &&& 0xF000) / 4096 := by
      rw [Nat.shiftRight_eq_div_pow]
    omega
  set m := (op &&& 0xF000) >>> 12 with hm
  clear_value m
  interval_cases m <;> simp only [reduceIte] at h
  -- m = 0: CLS / RET / silent SYS
  · by_cases hc1 : op = 0x00E0
    · rw [if_pos hc1] at h
      injection h with hA hB
      subst hA
      exact h_cls rfl
    · rw [if_neg hc1] at h
      by_cases hc2 : op = 0x00EE
      · rw [if_pos hc2] at h
        exact h_ret (liftOpt_ok h)
      · rw [if_neg hc2] at h
        injection h with hA hB
        subst hA
        exact h_noop rfl
  -- m = 1 .. 7
  · injection h with hA hB
    subst hA
    exact h_jp rfl
  · exact h_call (liftOpt_ok h)
  · injection h with hA hB
    subst hA
    exact h_se rfl
  · injection h with hA hB
    subst hA
    exact h_sne rfl
  · injection h with hA hB
    subst hA
    exact h_sevv rfl
  · injection h with hA hB
    subst hA
    exact h_ld rfl
  · injection h with hA hB
    subst hA
    exact h_add rfl
  -- m = 8: ALU family on the low nibble
  · by_cases hq0 : op &&& 0x000F = 0
    · rw [if_pos hq0] at h
      injection h with hA hB
      subst hA
      exact h_ldvv rfl
    · rw [if_neg hq0] at h
      by_cases hq1 : op &&& 0x000F = 1
      · rw [if_pos hq1] at h
        injection h with hA hB
        subst hA
        exact h_or rfl
      · rw [if_neg hq1] at h
        by_cases hq2 : op &&& 0x000F = 2
        · rw [if_pos hq2] at h
          injection h with hA hB
          subst hA
          exact h_and rfl
        · rw [if_neg hq2] at h
          by_cases hq3 : op &&& 0x000F = 3
          · rw [if_pos hq3] at h
            injection h with hA hB
            subst hA
            exact h_xor rfl
          · rw [if_neg hq3] at h
            by_cases hq4 : op &&& 0x000F = 4
            · rw [if_pos hq4] at h
              injection h with hA hB
              subst hA
              exact h_addvv rfl
            · rw [if_neg hq4] at h
              by_cases hq5 : op &&& 0x000F = 5
              · rw [if_pos hq5] at h
                injection h with hA hB
                subst hA
                exact h_subvv rfl
              · rw [if_neg hq5] at h
                by_cases hq6 : op &&& 0x000F = 6
                · rw [if_pos hq6] at h
                  injection h with hA hB
                  subst hA
                  exact h_shr rfl
                · rw [if_neg hq6] at h
                  by_cases hq7 : op &&& 0x000F = 7
                  · rw [if_pos hq7] at h
                    injection h with hA hB
                    subst hA
                    exact h_subn rfl
                  · rw [if_neg hq7] at h
                    by_cases hqE : op &&& 0x000F = 14
                    · rw [if_pos hqE] at h
                      injection h with hA hB
                      subst hA
                      exact h_shl rfl
                    · rw [if_neg hqE] at h
                      injection h with hA hB
                      subst hA
                      exact h_noop rfl
  -- m = 9 .. 13
  · injection h with hA hB
    subst hA
    exact h_snevv rfl
  · injection h with hA hB
    subst hA
    exact h_ldi rfl
  · injection h with hA hB
    subst hA
    exact h_jpv0 rfl
  · injection h with hA hB
    subst hA
    exact h_rnd rfl
  · exact h_drw (liftOpt_ok h)
  -- m = 14: SKP / SKNP
  · by_cases he1 : op &&& 0x00FF = 0x9E
    · rw [if_pos he1] at h
      exact h_skp (liftOpt_ok h)
    · rw [if_neg he1] at h
      by_cases he2 : op &&& 0x00FF = 0xA1
      · rw [if_pos he2] at h
        exact h_sknp (liftOpt_ok h)
      · rw [if_neg he2] at h
        injection h with hA hB
        subst hA
        exact h_noop rfl
  -- m = 15: the Fx family on the low byte
  · by_cases hf07 : op &&& 0x00FF = 0x07
    · rw [if_pos hf07] at h
      injection h with hA hB
      subst hA
      exact h_ldvdt rfl
    · rw [if_neg hf07] at h
      by_cases hf0A : op &&& 0x00FF = 0x0A
      · rw [if_pos hf0A] at h
        exact h_ldk (op_ld_vx_k_ok h)
      · rw [if_neg hf0A] at h
        by_cases hf15 : op &&& 0x00FF = 0x15
        · rw [if_pos hf15] at h
          injection h with hA hB
          subst hA
          exact h_lddt rfl
        · rw [if_neg hf15] at h
          by_cases hf18 : op &&& 0x00FF = 0x18
          · rw [if_pos hf18] at h
            injection h with hA hB
            subst hA
            exact h_ldst rfl
          · rw [if_neg hf18] at h
            by_cases hf1E : op &&& 0x00FF = 0x1E
            · rw [if_pos hf1E] at h
              injection h with hA hB
              subst hA
              exact h_addi rfl
            · rw [if_neg hf1E] at h
              by_cases hf29 : op &&& 0x00FF = 0x29
              · rw [if_pos hf29] at h
                injection h with hA hB
                subst hA
                exact h_ldf rfl
              · rw [if_neg hf29] at h
                by_cases hf33 : op &&& 0x00FF = 0x33
                · rw [if_pos hf33] at h
                  exact h_ldb ⟨liftOpt_ok h, rfl, hf33⟩
                · rw [if_neg hf33] at h
                  by_cases hf55 : op &&& 0x00FF = 0x55
                  · rw [if_pos hf55] at h
                    exact h_lds ⟨liftOpt_ok h, rfl, hf55⟩
                  · rw [if_neg hf55] at h
                    by_cases hf65 : op &&& 0x00FF = 0x65
                    · rw [if_pos hf65] at h
                      exact h_ldvxi (liftOpt_ok h)
                    · rw [if_neg hf65] at h
                      injection h with hA hB
                      subst hA
                      exact h_noop rfl

/- ----------------------------------------------------------------
   Sprite drawing: frame lemmas and fold invariants.
   ---------------------------------------------------------------- -/

theorem foldl_inv {P : Chip8 → Prop} (f : Chip8 → Nat → Chip8) :
    ∀ l : List Nat, (∀ b, b ∈ l → ∀ u, P u → P (f u b)) → ∀ t, P t → P (List.foldl f t l) := by
  intro l
  induction l with
  | nil =>
    intro _ t ht
    simpa using ht
  | cons a l ih =>
    intro hstep t ht
    rw [List.foldl_cons]
    exact ih (fun b hb u hu => hstep b (List.mem_cons_of_mem a hb) u hu) _
      (hstep a (List.mem_cons_self a l) t ht)

theorem drawFrame_rfl (s : Chip8) : DrawFrame s s :=
  ⟨rfl, rfl, rfl, rfl, rfl, rfl, rfl, rfl, rfl, rfl, rfl, rfl, rfl, rfl, rfl,
   fun _ _ => rfl, Or.inr (Or.inr rfl), fun _ => Or.inl rfl⟩

theorem drawFrame_trans {s t u : Chip8} (h1 : DrawFrame s t) (h2 : DrawFrame t u) :
    DrawFrame s u := by
  refine ⟨h2.mem_eq.trans h1.mem_eq, h2.stack_eq.trans h1.stack_eq,
    h2.sp_eq.trans h1.sp_eq, h2.dt_eq.trans h1.dt_eq, h2.st_eq.trans h1.st_eq,
    h2.pc_eq.trans h1.pc_eq, h2.I_eq.trans h1.I_eq, h2.keypad_eq.trans h1.keypad_eq,
    h2.qdw_eq.trans h1.qdw_eq, h2.qc_eq.trans h1.qc_eq, h2.qs_eq.trans h1.qs_eq,
    h2.qls_eq.trans h1.qls_eq, h2.wait_eq.trans h1.wait_eq,
    h2.rand_eq.trans h1.rand_eq, h2.randIdx_eq.trans h1.randIdx_eq, ?_, ?_, ?_⟩
  · intro j hj
    exact (h2.regs_eq j hj).trans (h1.regs_eq j hj)
  · rcases h2.vf_cases with h | h | h
    · exact Or.inl h
    · exact Or.inr (Or.inl h)
    · rw [h]
      exact h1.vf_cases
  · intro p
    rcases h2.screen_cases p with h | h <;> rcases h1.screen_cases p with h' | h'
    · exact Or.inl (h.trans h')
    · exact Or.inr (h.trans h')
    · rw [h, h']
      exact Or.inr rfl
    · rw [h, h']
      left
      rw [Nat.xor_assoc]
      simp

theorem togglePixel_frame (s : Chip8) (idx : Nat) : DrawFrame s (togglePixel s idx) := by
  unfold togglePixel
  by_cases hlt : idx < SCREEN_W * SCREEN_H
  · rw [if_pos hlt]
    by_cases hc : s.screen idx = 1
    · rw [if_pos hc]
      refine ⟨rfl, rfl, rfl, rfl, rfl, rfl, rfl, rfl, rfl, rfl, rfl, rfl, rfl, rfl, rfl,
        ?_, ?_, ?_⟩
      · intro j hj
        show upd s.regs 0xF 1 j = s.regs j
        exact upd_other _ _ _ _ hj
      · refine Or.inr (Or.inl ?_)
        show upd s.regs 0xF 1 0xF = 1
        exact upd_self _ _ _
      · intro p
        by_cases hp : p = idx
        · subst hp
          right
          show upd s.screen p (s.screen p ^^^ 1) p = s.screen p ^^^ 1
          exact upd_self _ _ _
        · left
          show upd s.screen idx (s.screen idx ^^^ 1) p = s.screen p
          exact upd_other _ _ _ _ hp
    · rw [if_neg hc]
      refine ⟨rfl, rfl, rfl, rfl, rfl, rfl, rfl, rfl, rfl, rfl, rfl, rfl, rfl, rfl, rfl,
        fun _ _ => rfl, Or.inr (Or.inr rfl), ?_⟩
      intro p
      by_cases hp : p = idx
      · subst hp
        right
        show upd s.screen p (s.screen p ^^^ 1) p = s.screen p ^^^ 1
        exact upd_self _ _ _
      · left
        show upd s.screen idx (s.screen idx ^^^ 1) p = s.screen p
        exact upd_other _ _ _ _ hp
  · rw [if_neg hlt]
    exact drawFrame_rfl s

theorem togglePixel_screen_ne (s : Chip8) (idx j : Nat) (h : j ≠ idx) :
    (togglePixel s idx).screen j = s.screen j := by
  unfold togglePixel
  by_cases hlt : idx < SCREEN_W * SCREEN_H
  · rw [if_pos hlt]
    by_cases hc : s.screen idx = 1
    · rw [if_pos hc]
      show upd s.screen idx (s.screen idx ^^^ 1) j = s.screen j
      exact upd_other _ _ _ _ h
    · rw [if_neg hc]
      show upd s.screen idx (s.screen idx ^^^ 1) j = s.screen j
      exact upd_other _ _ _ _ h
  · rw [if_neg hlt]

theorem drawBit_frame (s : Chip8) (bx fy sb b : Nat) : DrawFrame s (drawBit s bx fy sb b) := by
  unfold drawBit
  by_cases hbit : (sb >>> (7 - b)) &&& 1 = 1
  · rw [if_pos hbit]
    by_cases hq : s.quirk_clipping = true
    · rw [if_pos hq]
      by_cases hpx : bx + b ≥ SCREEN_W
      · rw [if_pos hpx]
        exact drawFrame_rfl s
      · rw [if_neg hpx]
        exact togglePixel_frame s _
    · rw [if_neg hq]
      exact togglePixel_frame s _
  · rw [if_neg hbit]
    exact drawFrame_rfl s

theorem drawRow_frame (t : Chip8) (bx fy sb : Nat) : DrawFrame t (drawRow t bx fy sb) := by
  unfold drawRow
  exact foldl_inv _ _ (fun b _ u hu => drawFrame_trans hu (drawBit_frame u bx fy sb b)) t
    (drawFrame_rfl t)

theorem drawRows_zero (bx by_ i : Nat) (t : Chip8) (r n : Nat) (h : ¬ r < n) :
    drawRows bx by_ i t r n = some t := by
  conv_lhs => unfold drawRows
  rw [dif_neg h]

theorem drawRows_oob (bx by_ i : Nat) (t : Chip8) (r n : Nat) (h : r < n)
    (hmem : ¬ i + r < Chip8.MEM_SIZE) :
    drawRows bx by_ i t r n = none := by
  conv_lhs => unfold drawRows
  rw [dif_pos h, if_neg hmem]

theorem drawRows_step (bx by_ i : Nat) (t : Chip8) (r n : Nat) (h : r < n)
    (hmem : i + r < Chip8.MEM_SIZE) :
    drawRows bx by_ i t r n =
      drawRows bx by_ i
        (if t.quirk_clipping then
           if by_ + r ≥ Chip8.SCREEN_H then t
           else drawRow t bx (by_ + r) (t.mem (i + r))
         else drawRow t bx ((by_ + r) % Chip8.SCREEN_H) (t.mem (i + r)))
        (r + 1) n := by
  conv_lhs => unfold drawRows
  rw [dif_pos h, if_pos hmem]

theorem drawRows_frame (bx by_ i : Nat) :
    ∀ k r n t t', n - r = k → drawRows bx by_ i t r n = some t' → DrawFrame t t' := by
  intro k
  induction k with
  | zero =>
    intro r n t t' hk h
    rw [drawRows_zero bx by_ i t r n (by omega)] at h
    obtain rfl := Option.some.inj h
    exact drawFrame_rfl t
  | succ k ih =>
    intro r n t t' hk h
    have hr : r < n := by omega
    by_cases hmem : i + r < Chip8.MEM_SIZE
    · rw [drawRows_step bx by_ i t r n hr hmem] at h
      have h1 : DrawFrame t
          (if t.quirk_clipping then
             if by_ + r ≥ Chip8.SCREEN_H then t
             else drawRow t bx (by_ + r) (t.mem (i + r))
           else drawRow t bx ((by_ + r) % Chip8.SCREEN_H) (t.mem (i + r))) := by
        split_ifs with hq hy
        · exact drawFrame_rfl t
        · exact drawRow_frame t _ _ _
        · exact drawRow_frame t _ _ _
      exact drawFrame_trans h1 (ih (r + 1) n _ t' (by omega) h)
    · rw [drawRows_oob bx by_ i t r n hr hmem] at h
      exact absurd h (by simp)

/- ----------------------------------------------------------------
   Extraction lemmas for the fallible handlers.
   ---------------------------------------------------------------- -/

theorem op_ret_some {s t : Chip8} (h : op_ret_from_subroutine s = some t) :
    s.sp ≠ 0 ∧ t = { s with sp := s.sp - 1, pc := s.stack (s.sp - 1) } := by
  unfold op_ret_from_subroutine at h
  split_ifs at h with h0
  exact ⟨h0, (Option.some.inj h).symm⟩

theorem op_call_some {s : Chip8} {nnn : Nat} {t : Chip8} (h : op_call_addr s nnn = some t) :
    ¬ s.sp ≥ 16 ∧
    t = { s with stack := upd s.stack s.sp s.pc, sp := s.sp + 1, pc := nnn &&& 0xFFF } := by
  unfold op_call_addr at h
  split_ifs at h with h0
  exact ⟨h0, (Option.some.inj h).symm⟩

theorem op_skp_some {s : Chip8} {x : Nat} {t : Chip8} (h : op_skp_vx s x = some t) :
    t = s ∨ t = { s with pc := (s.pc + 2) &&& 0xFFFF } := by
  simp only [op_skp_vx] at h
  split_ifs at h
  · exact Or.inr (Option.some.inj h).symm
  · exact Or.inl (Option.some.inj h).symm

theorem op_sknp_some {s : Chip8} {x : Nat} {t : Chip8} (h : op_sknp_vx s x = some t) :
    t = s ∨ t = { s with pc := (s.pc + 2) &&& 0xFFFF } := by
  simp only [op_sknp_vx] at h
  split_ifs at h
  · exact Or.inl (Option.some.inj h).symm
  · exact Or.inr (Option.some.inj h).symm

theorem op_ld_b_some {s : Chip8} {x : Nat} {t : Chip8} (h : op_ld_b_vx s x = some t) :
    s.I + 2 < Chip8.MEM_SIZE ∧
    t = { s with mem := upd (upd (upd s.mem s.I (s.regs x / 100 % 10)) (s.I + 1)
            (s.regs x / 10 % 10)) (s.I + 2) (s.regs x % 10) } := by
  simp only [op_ld_b_vx] at h
  split_ifs at h with h0
  exact ⟨h0, (Option.some.inj h).symm⟩

theorem op_ld_i_some {s : Chip8} {x : Nat} {t : Chip8} (h : op_ld_i_vx s x = some t) :
    ¬ s.I + x ≥ Chip8.MEM_SIZE ∧
    t = { store_regs_loop s x with I := ((store_regs_loop s x).I + x + 1) &&& 0xFFF } := by
  simp only [op_ld_i_vx] at h
  split_ifs at h with h0
  exact ⟨h0, (Option.some.inj h).symm⟩

theorem op_ld_vx_i_some {s : Chip8} {x : Nat} {t : Chip8} (h : op_ld_vx_i s x = some t) :
    s.I + x < Chip8.MEM_SIZE ∧
    t = { load_regs_loop s x with I := ((load_regs_loop s x).I + x + 1) &&& 0xFFF } := by
  simp only [op_ld_vx_i] at h
  split_ifs at h with h0
  exact ⟨h0, (Option.some.inj h).symm⟩

theorem op_drw_some_spec {s : Chip8} {x y n : Nat} {t : Chip8}
    (h : op_drw_vx_vy_n s x y n = some t) :
    t.mem = s.mem ∧ t.stack = s.stack ∧ t.sp = s.sp ∧ t.dt = s.dt ∧ t.st = s.st ∧
    t.pc = s.pc ∧ t.I = s.I ∧
    (∀ j, j ≠ 0xF → t.regs j = s.regs j) ∧ (t.regs 0xF = 0 ∨ t.regs 0xF = 1) ∧
    (∀ p, t.screen p = s.screen p ∨ t.screen p = s.screen p ^^^ 1) := by
  unfold op_drw_vx_vy_n at h
  rcases Option.map_eq_some'.mp h with ⟨u, hu, rfl⟩
  have hf := drawRows_frame (s.regs x % SCREEN_W) (s.regs y % SCREEN_H) s.I
    (n - 0) 0 n _ u rfl hu
  have hregs : ∀ j, j ≠ 0xF →
      (if u.quirk_display_wait then { u with waiting_for_draw_sync := true } else u).regs j
        = s.regs j := by
    intro j hj
    have h1 : (if u.quirk_display_wait then { u with waiting_for_draw_sync := true }
        else u).regs j = u.regs j := by
      split_ifs <;> rfl
    rw [h1, hf.regs_eq j hj]
    exact upd_other _ _ _ _ hj
  constructor
  · have h1 : (if u.quirk_display_wait then { u with waiting_for_draw_sync := true }
        else u).mem = u.mem := by
      split_ifs <;> rfl
    rw [h1, hf.mem_eq]
  refine ⟨?_, ?_, ?_, ?_, ?_, ?_, hregs, ?_, ?_⟩
  · have h1 : (if u.quirk_display_wait then { u with waiting_for_draw_sync := true }
        else u).stack = u.stack := by
      split_ifs <;> rfl
    rw [h1, hf.stack_eq]
  · have h1 : (if u.quirk_display_wait then { u with waiting_for_draw_sync := true }
        else u).sp = u.sp := by
      split_ifs <;> rfl
    rw [h1, hf.sp_eq]
  · have h1 : (if u.quirk_display_wait then { u with waiting_for_draw_sync := true }
        else u).dt = u.dt := by
      split_ifs <;> rfl
    rw [h1, hf.dt_eq]
  · have h1 : (if u.quirk_display_wait then { u with waiting_for_draw_sync := true }
        else u).st = u.st := by
      split_ifs <;> rfl
    rw [h1, hf.st_eq]
  · have h1 : (if u.quirk_display_wait then { u with waiting_for_draw_sync := true }
        else u).pc = u.pc := by
      split_ifs <;> rfl
    rw [h1, hf.pc_eq]
  · have h1 : (if u.quirk_display_wait then { u with waiting_for_draw_sync := true }
        else u).I = u.I := by
      split_ifs <;> rfl
    rw [h1, hf.I_eq]
  · have h1 : (if u.quirk_display_wait then { u with waiting_for_draw_sync := true }
        else u).regs 0xF = u.regs 0xF := by
      split_ifs <;> rfl
    rw [h1]
    rcases hf.vf_cases with hv | hv | hv
    · exact Or.inl hv
    · exact Or.inr hv
    · rw [hv]
      refine Or.inl ?_
      show upd s.regs 0xF 0 0xF = 0
      exact upd_self _ _ _
  · intro p
    have h1 : (if u.quirk_display_wait then { u with waiting_for_draw_sync := true }
        else u).screen p = u.screen p := by
      split_ifs <;> rfl
    rw [h1]
    exact hf.screen_cases p

/- ----------------------------------------------------------------
   C2: the font region under one instruction.
   ---------------------------------------------------------------- -/

/-- Memory-preservation on all addresses yields all three parts of the C2
conjunction at once. -/
theorem C2_of_mem_eq {s t : Chip8} {op : Nat} (hmem : ∀ a, t.mem a = s.mem a) :
    (¬ ((op &&& 0xF000) >>> 12 = 15 ∧ (op &&& 0x00FF = 0x33 ∨ op &&& 0x00FF = 0x55)) →
      ∀ a, t.mem a = s.mem a) ∧
    ((op &&& 0xF000) >>> 12 = 15 → op &&& 0x00FF = 0x33 →
      ∀ a, a < s.I ∨ s.I + 2 < a → t.mem a = s.mem a) ∧
    ((op &&& 0xF000) >>> 12 = 15 → op &&& 0x00FF = 0x55 →
      ∀ a, a < s.I ∨ s.I + ((op &&& 0x0F00) >>> 8) < a → t.mem a = s.mem a) :=
  ⟨fun _ => hmem, fun _ _ a _ => hmem a, fun _ _ a _ => hmem a⟩

/-- C2 (amended): one executed instruction leaves the font region
0x050..0x09F unchanged unless it is Fx33 or Fx55 whose write window reaches
it: every opcode other than Fx33/Fx55 leaves all memory unchanged, Fx33
leaves every address outside I..I+2 unchanged, and Fx55 leaves every address
outside I..I+x unchanged — so the font bytes survive exactly when the
window I..I+2 (resp. I..I+x) misses 0x050..0x09F. -/
theorem C2_font_region_preserved (s : Chip8) (op : Nat) (s' : Chip8) (c : Bool)
    (h : Chip8.match_op s op = .ok s' c) :
    (¬ ((op &&& 0xF000) >>> 12 = 15 ∧ (op &&& 0x00FF = 0x33 ∨ op &&& 0x00FF = 0x55)) →
      ∀ a, s'.mem a = s.mem a) ∧
    ((op &&& 0xF000) >>> 12 = 15 → op &&& 0x00FF = 0x33 →
      ∀ a, a < s.I ∨ s.I + 2 < a → s'.mem a = s.mem a) ∧
    ((op &&& 0xF000) >>> 12 = 15 → op &&& 0x00FF = 0x55 →
      ∀ a, a < s.I ∨ s.I + ((op &&& 0x0F00) >>> 8) < a → s'.mem a = s.mem a) := by
  refine match_op_ok_elim s op s' c h _ ?_ ?_ ?_ ?_ ?_ ?_ ?_ ?_ ?_ ?_
    ?_ ?_ ?_ ?_ ?_ ?_ ?_ ?_ ?_ ?_ ?_ ?_ ?_ ?_ ?_ ?_ ?_ ?_ ?_ ?_ ?_ ?_ ?_ ?_ ?_
  · intro heq
    subst heq
    exact C2_of_mem_eq fun a => rfl
  · intro heq
    subst heq
    exact C2_of_mem_eq fun a => rfl
  · intro heq
    rw [(op_ret_some heq).2]
    exact C2_of_mem_eq fun a => rfl
  · intro heq
    subst heq
    exact C2_of_mem_eq fun a => rfl
  · intro heq
    rw [(op_call_some heq).2]
    exact C2_of_mem_eq fun a => rfl
  · intro heq
    subst heq
    refine C2_of_mem_eq ?_
    intro a
    simp only [op_se_vx_byte]
    split_ifs <;> rfl
  · intro heq
    subst heq
    refine C2_of_mem_eq ?_
    intro a
    simp only [op_sne_vx_byte]
    split_ifs <;> rfl
  · intro heq
    subst heq
    refine C2_of_mem_eq ?_
    intro a
    simp only [op_se_vx_vy]
    split_ifs <;> rfl
  · intro heq
    subst heq
    exact C2_of_mem_eq fun a => rfl
  · intro heq
    subst heq
    exact C2_of_mem_eq fun a => rfl
  · intro heq
    subst heq
    exact C2_of_mem_eq fun a => rfl
  · intro heq
    subst heq
    exact C2_of_mem_eq fun a => rfl
  · intro heq
    subst heq
    exact C2_of_mem_eq fun a => rfl
  · intro heq
    subst heq
    exact C2_of_mem_eq fun a => rfl
  · intro heq
    subst heq
    exact C2_of_mem_eq fun a => rfl
  · intro heq
    subst heq
    exact C2_of_mem_eq fun a => rfl
  · intro heq
    subst heq
    exact C2_of_mem_eq fun a => rfl
  · intro heq
    subst heq
    exact C2_of_mem_eq fun a => rfl
  · intro heq
    subst heq
    exact C2_of_mem_eq fun a => rfl
  · intro heq
    subst heq
    refine C2_of_mem_eq ?_
    intro a
    simp only [op_sne_vx_vy]
    split_ifs <;> rfl
  · intro heq
    subst heq
    exact C2_of_mem_eq fun a => rfl
  · intro heq
    subst heq
    exact C2_of_mem_eq fun a => rfl
  · intro heq
    subst heq
    exact C2_of_mem_eq fun a => rfl
  · intro heq
    exact C2_of_mem_eq fun a => congrFun (op_drw_some_spec heq).1 a
  · intro heq
    rcases op_skp_some heq with rfl | rfl <;> exact C2_of_mem_eq fun a => rfl
  · intro heq
    rcases op_sknp_some heq with rfl | rfl <;> exact C2_of_mem_eq fun a => rfl
  · intro heq
    subst heq
    exact C2_of_mem_eq fun a => rfl
  · rintro ⟨idx, -, heq⟩
    subst heq
    exact C2_of_mem_eq fun a => rfl
  · intro heq
    subst heq
    exact C2_of_mem_eq fun a => rfl
  · intro heq
    subst heq
    exact C2_of_mem_eq fun a => rfl
  · intro heq
    subst heq
    exact C2_of_mem_eq fun a => rfl
  · intro heq
    subst heq
    exact C2_of_mem_eq fun a => rfl
  -- Fx33: writes exactly at I, I+1, I+2
  · rintro ⟨hsome, h15, h33⟩
    obtain ⟨hI2, rfl⟩ := op_ld_b_some hsome
    refine ⟨?_, ?_, ?_⟩
    · intro hop
      exact absurd ⟨h15, Or.inl h33⟩ hop
    · intro _ _ a ha
      show upd (upd (upd s.mem s.I (s.regs ((op &&& 0x0F00) >>> 8) / 100 % 10)) (s.I + 1)
          (s.regs ((op &&& 0x0F00) >>> 8) / 10 % 10)) (s.I + 2)
          (s.regs ((op &&& 0x0F00) >>> 8) % 10) a = s.mem a
      rw [upd_other _ _ _ _ (by omega), upd_other _ _ _ _ (by omega),
        upd_other _ _ _ _ (by omega)]
    · intro _ h55
      exact absurd (h33.symm.trans h55) (by decide)
  -- Fx55: writes exactly at I..I+x
  · rintro ⟨hsome, h15, h55⟩
    obtain ⟨hg, rfl⟩ := op_ld_i_some hsome
    refine ⟨?_, ?_, ?_⟩
    · intro hop
      exact absurd ⟨h15, Or.inr h55⟩ hop
    · intro _ h33
      exact absurd (h55.symm.trans h33) (by decide)
    · intro _ _ a ha
      show (store_regs_loop s ((op &&& 0x0F00) >>> 8)).mem a = s.mem a
      obtain ⟨hI, hregs, hpc, hsp, hstack, hscreen, hdt, hst, hmem_in, hmem_out⟩ :=
        store_loop_spec s ((op &&& 0x0F00) >>> 8)
      exact hmem_out a (fun i hi => by omega)
  · intro heq
    rw [(op_ld_vx_i_some heq).2]
    refine C2_of_mem_eq ?_
    intro a
    show (load_regs_loop s ((op &&& 0x0F00) >>> 8)).mem a = s.mem a
    exact congrFun (load_loop_spec s ((op &&& 0x0F00) >>> 8)).2.1 a

/-- Witness for C2: CLS at the fresh machine keeps the first font byte (and
all memory) intact. -/
theorem C2_font_region_preserved_witness :
    (Chip8.op_disp_clear Chip8.init).mem 0x50 = Chip8.init.mem 0x50 :=
  (C2_font_region_preserved Chip8.init 0x00E0 (Chip8.op_disp_clear Chip8.init) true rfl).1
    (by decide) 0x50

/-- C2 counterexample: running the two-instruction program `A050 F033`
(`LD I, 0x050` then `LD B, V0`) from a fresh load overwrites font byte 0x050:
after the first step it still reads 0xF0, after the second it reads 0 —
one executed instruction (Fx33 with I = 0x050) mutated the font region. -/
theorem C2_font_mutation_counterexample :
    ((Main.load_rom [0xA0, 0x50, 0xF0, 0x33]).loadedState.bind Chip8.stepOk).map
        (fun t => t.mem 0x50) = some 0xF0 ∧
    (((Main.load_rom [0xA0, 0x50, 0xF0, 0x33]).loadedState.bind Chip8.stepOk).bind
        Chip8.stepOk).map (fun t => t.mem 0x50) = some 0 ∧
    (0xF0 : Nat) ≠ 0 := by
  refine ⟨?_, ?_, by decide⟩ <;> rfl

/- ----------------------------------------------------------------
   C3: width-invariant helpers.
   ---------------------------------------------------------------- -/

theorem nib2_lt (op : Nat) : (op &&& 0x0F00) >>> 8 < 16 := by
  have h1 : op &&& 0x0F00 ≤ 0x0F00 := Nat.and_le_right
  have h2 : (op &&& 0x0F00) >>> 8 = (op &&& 0x0F00) / 256 := by
    rw [Nat.shiftRight_eq_div_pow]
  omega

theorem nib3_lt (op : Nat) : (op &&& 0x00F0) >>> 4 < 16 := by
  have h1 : op &&& 0x00F0 ≤ 0x00F0 := Nat.and_le_right
  have h2 : (op &&& 0x00F0) >>> 4 = (op &&& 0x00F0) / 16 := by
    rw [Nat.shiftRight_eq_div_pow]
  omega

theorem or_le_255 {a b : Nat} (ha : a ≤ 255) (hb : b ≤ 255) : a ||| b ≤ 255 := by
  have := Nat.or_lt_two_pow (x := a) (y := b) (n := 8) (by omega) (by omega)
  omega

theorem xor_le_255 {a b : Nat} (ha : a ≤ 255) (hb : b ≤ 255) : a ^^^ b ≤ 255 := by
  have := Nat.xor_lt_two_pow (x := a) (y := b) (n := 8) (by omega) (by omega)
  omega

theorem widthInv_set_reg {s : Chip8} (h : WidthInv s) (ix v : Nat) (hv : v ≤ 255) :
    WidthInv { s with regs := upd s.regs ix v } := by
  obtain ⟨h1, h2, h3, h4, h5, h6, h7, h8, h9⟩ := h
  refine ⟨?_, h2, h3, h4, h5, h6, h7, h8, h9⟩
  intro i hi
  show upd s.regs ix v i ≤ 255
  by_cases hix : i = ix
  · subst hix
    rw [upd_self]
    exact hv
  · rw [upd_other _ _ _ _ hix]
    exact h1 i hi

theorem widthInv_set_pc {s : Chip8} (h : WidthInv s) (v : Nat) (hv : v ≤ 0xFFFF) :
    WidthInv { s with pc := v } := by
  obtain ⟨h1, h2, h3, h4, h5, h6, h7, h8, h9⟩ := h
  exact ⟨h1, h2, hv, h4, h5, h6, h7, h8, h9⟩

theorem widthInv_set_I {s : Chip8} (h : WidthInv s) (v : Nat) (hv : v ≤ 0xFFF) :
    WidthInv { s with I := v } := by
  obtain ⟨h1, h2, h3, h4, h5, h6, h7, h8, h9⟩ := h
  exact ⟨h1, hv, h3, h4, h5, h6, h7, h8, h9⟩

theorem widthInv_set_mem {s : Chip8} (h : WidthInv s) (k v : Nat) (hv : v ≤ 255) :
    WidthInv { s with mem := upd s.mem k v } := by
  obtain ⟨h1, h2, h3, h4, h5, h6, h7, h8, h9⟩ := h
  refine ⟨h1, h2, h3, h4, h5, h6, h7, ?_, h9⟩
  intro a ha
  show upd s.mem k v a ≤ 255
  by_cases hak : a = k
  · subst hak
    rw [upd_self]
    exact hv
  · rw [upd_other _ _ _ _ hak]
    exact h8 a ha

theorem widthInv_skip {s : Chip8} (h : WidthInv s) :
    WidthInv { s with pc := (s.pc + 2) &&& 0xFFFF } :=
  widthInv_set_pc h _ Nat.and_le_right

theorem and_le_255 (a : Nat) : a &&& 0xFF ≤ 255 := Nat.and_le_right

/- ----------------------------------------------------------------
   C3: the width invariant is preserved by every successful dispatch.
   ---------------------------------------------------------------- -/

/-- C3: if a machine satisfies the width invariant and `match_op` completes
normally on any opcode, the resulting machine satisfies it again: all
registers are bytes, I is 12-bit, PC 16-bit, SP at most 16, the timers bytes,
and every framebuffer cell 0 or 1 (plus: stack slots 16-bit and memory cells
bytes). -/
theorem C3_width_invariant (s : Chip8) (op : Nat) (hinv : WidthInv s)
    (s' : Chip8) (c : Bool) (h : Chip8.match_op s op = .ok s' c) : WidthInv s' := by
  have hn2 : (op &&& 0x0F00) >>> 8 < 16 := nib2_lt op
  have hn3 : (op &&& 0x00F0) >>> 4 < 16 := nib3_lt op
  have hr2 : s.regs ((op &&& 0x0F00) >>> 8) ≤ 255 := hinv.regs_le _ hn2
  have hr3 : s.regs ((op &&& 0x00F0) >>> 4) ≤ 255 := hinv.regs_le _ hn3
  refine match_op_ok_elim s op s' c h (WidthInv s') ?_ ?_ ?_ ?_ ?_ ?_ ?_ ?_ ?_ ?_
    ?_ ?_ ?_ ?_ ?_ ?_ ?_ ?_ ?_ ?_ ?_ ?_ ?_ ?_ ?_ ?_ ?_ ?_ ?_ ?_ ?_ ?_ ?_ ?_ ?_
  -- noop
  · intro heq
    subst heq
    exact hinv
  -- 00E0 CLS
  · intro heq
    subst heq
    obtain ⟨h1, h2, h3, h4, h5, h6, h7, h8, h9⟩ := hinv
    exact ⟨h1, h2, h3, h4, h5, h6, h7, h8, fun p _ => Or.inl rfl⟩
  -- 00EE RET
  · intro heq
    obtain ⟨hsp0, rfl⟩ := op_ret_some heq
    obtain ⟨h1, h2, h3, h4, h5, h6, h7, h8, h9⟩ := hinv
    refine ⟨h1, h2, ?_, ?_, h5, h6, h7, h8, h9⟩
    · show s.stack (s.sp - 1) ≤ 0xFFFF
      exact h7 _ (by omega)
    · show s.sp - 1 ≤ 16
      omega
  -- 1nnn JP
  · intro heq
    subst heq
    exact widthInv_set_pc hinv _ (le_trans Nat.and_le_right (by norm_num))
  -- 2nnn CALL
  · intro heq
    obtain ⟨hsp, rfl⟩ := op_call_some heq
    obtain ⟨h1, h2, h3, h4, h5, h6, h7, h8, h9⟩ := hinv
    refine ⟨h1, h2, le_trans Nat.and_le_right (by norm_num), ?_, h5, h6, ?_, h8, h9⟩
    · show s.sp + 1 ≤ 16
      omega
    · intro i hi
      show upd s.stack s.sp s.pc i ≤ 0xFFFF
      by_cases hisp : i = s.sp
      · subst hisp
        rw [upd_self]
        exact h3
      · rw [upd_other _ _ _ _ hisp]
        exact h7 i hi
  -- 3xnn SE
  · intro heq
    subst heq
    unfold op_se_vx_byte
    split_ifs
    · exact widthInv_skip hinv
    · exact hinv
  -- 4xnn SNE
  · intro heq
    subst heq
    unfold op_sne_vx_byte
    split_ifs
    · exact widthInv_skip hinv
    · exact hinv
  -- 5xy0 SE Vx Vy
  · intro heq
    subst heq
    unfold op_se_vx_vy
    split_ifs
    · exact widthInv_skip hinv
    · exact hinv
  -- 6xnn LD Vx byte
  · intro heq
    subst heq
    exact widthInv_set_reg hinv _ _ (and_le_255 _)
  -- 7xnn ADD Vx byte
  · intro heq
    subst heq
    exact widthInv_set_reg hinv _ _ (and_le_255 _)
  -- 8xy0 LD Vx Vy
  · intro heq
    subst heq
    exact widthInv_set_reg hinv _ _ hr3
  -- 8xy1 OR
  · intro heq
    subst heq
    exact widthInv_set_reg (widthInv_set_reg hinv _ _ (or_le_255 hr2 hr3)) 0xF 0 (by omega)
  -- 8xy2 AND
  · intro heq
    subst heq
    exact widthInv_set_reg (widthInv_set_reg hinv _ _ (le_trans Nat.and_le_right hr3))
      0xF 0 (by omega)
  -- 8xy3 XOR
  · intro heq
    subst heq
    exact widthInv_set_reg (widthInv_set_reg hinv _ _ (xor_le_255 hr2 hr3)) 0xF 0 (by omega)
  -- 8xy4 ADD Vx Vy
  · intro heq
    subst heq
    refine widthInv_set_reg (widthInv_set_reg hinv _ _ (and_le_255 _)) 0xF _ ?_
    split_ifs <;> omega
  -- 8xy5 SUB
  · intro heq
    subst heq
    refine widthInv_set_reg (widthInv_set_reg hinv _ _ (sub8_le _ _)) 0xF _ ?_
    split_ifs <;> omega
  -- 8xy6 SHR
  · intro heq
    subst heq
    exact widthInv_set_reg (widthInv_set_reg hinv _ _ (and_le_255 _)) 0xF _
      (le_trans Nat.and_le_right (by norm_num))
  -- 8xy7 SUBN
  · intro heq
    subst heq
    refine widthInv_set_reg (widthInv_set_reg hinv _ _ (sub8_le _ _)) 0xF _ ?_
    split_ifs <;> omega
  -- 8xyE SHL
  · intro heq
    subst heq
    exact widthInv_set_reg (widthInv_set_reg hinv _ _ (and_le_255 _)) 0xF _
      (le_trans Nat.and_le_right (by norm_num))
  -- 9xy0 SNE Vx Vy
  · intro heq
    subst heq
    unfold op_sne_vx_vy
    split_ifs
    · exact widthInv_skip hinv
    · exact hinv
  -- Annn LD I
  · intro heq
    subst heq
    exact widthInv_set_I hinv _ Nat.and_le_right
  -- Bnnn JP V0
  · intro heq
    subst heq
    exact widthInv_set_pc hinv _ (le_trans Nat.and_le_right (by norm_num))
  -- Cxnn RND
  · intro heq
    subst heq
    obtain ⟨h1, h2, h3, h4, h5, h6, h7, h8, h9⟩ := hinv
    refine ⟨?_, h2, h3, h4, h5, h6, h7, h8, h9⟩
    intro i hi
    show upd s.regs ((op &&& 0x0F00) >>> 8) (s.rand s.randIdx % 256 &&& (op &&& 0x00FF)) i
      ≤ 255
    by_cases hix : i = (op &&& 0x0F00) >>> 8
    · subst hix
      rw [upd_self]
      exact le_trans Nat.and_le_left (by omega)
    · rw [upd_other _ _ _ _ hix]
      exact h1 i hi
  -- Dxyn DRW
  · intro heq
    obtain ⟨hmem, hstack, hsp, hdt, hst, hpc, hI, hregs, hvf, hscreen⟩ := op_drw_some_spec heq
    obtain ⟨h1, h2, h3, h4, h5, h6, h7, h8, h9⟩ := hinv
    refine ⟨?_, by rw [hI]; exact h2, by rw [hpc]; exact h3, by rw [hsp]; exact h4,
      by rw [hdt]; exact h5, by rw [hst]; exact h6,
      fun i hi => by rw [congrFun hstack i]; exact h7 i hi,
      fun a ha => by rw [congrFun hmem a]; exact h8 a ha, ?_⟩
    · intro i hi
      by_cases hi15 : i = 0xF
      · subst hi15
        rcases hvf with hv | hv <;> omega
      · rw [hregs i hi15]
        exact h1 i hi
    · intro p hp
      rcases hscreen p with hs | hs
      · rw [hs]
        exact h9 p hp
      · rw [hs]
        rcases h9 p hp with h0 | h0 <;> rw [h0]
        · right
          rfl
        · left
          rfl
  -- Ex9E SKP
  · intro heq
    rcases op_skp_some heq with rfl | rfl
    · exact hinv
    · exact widthInv_skip hinv
  -- ExA1 SKNP
  · intro heq
    rcases op_sknp_some heq with rfl | rfl
    · exact hinv
    · exact widthInv_skip hinv
  -- Fx07 LD Vx DT
  · intro heq
    subst heq
    exact widthInv_set_reg hinv _ _ hinv.dt_le
  -- Fx0A LD Vx K
  · rintro ⟨idx, hfp, rfl⟩
    obtain ⟨-, hlt, -, -⟩ := firstPressed_some_spec s.keypad 16 0 idx hfp
    exact widthInv_set_reg hinv _ _ (by omega)
  -- Fx15 LD DT Vx
  · intro heq
    subst heq
    obtain ⟨h1, h2, h3, h4, h5, h6, h7, h8, h9⟩ := hinv
    exact ⟨h1, h2, h3, h4, and_le_255 _, h6, h7, h8, h9⟩
  -- Fx18 LD ST Vx
  · intro heq
    subst heq
    obtain ⟨h1, h2, h3, h4, h5, h6, h7, h8, h9⟩ := hinv
    exact ⟨h1, h2, h3, h4, h5, and_le_255 _, h7, h8, h9⟩
  -- Fx1E ADD I Vx
  · intro heq
    subst heq
    exact widthInv_set_I hinv _ Nat.and_le_right
  -- Fx29 LD F Vx
  · intro heq
    subst heq
    refine widthInv_set_I hinv _ ?_
    show Chip8.FONT_START + s.regs ((op &&& 0x0F00) >>> 8) * 5 ≤ 0xFFF
    have hfs : Chip8.FONT_START = 0x50 := rfl
    omega
  -- Fx33 LD B Vx
  · intro heq
    obtain ⟨hI2, rfl⟩ := op_ld_b_some heq.1
    have hd1 : s.regs ((op &&& 0x0F00) >>> 8) / 100 % 10 ≤ 255 := by
      have := Nat.mod_lt (s.regs ((op &&& 0x0F00) >>> 8) / 100) (show 0 < 10 by omega)
      omega
    have hd2 : s.regs ((op &&& 0x0F00) >>> 8) / 10 % 10 ≤ 255 := by
      have := Nat.mod_lt (s.regs ((op &&& 0x0F00) >>> 8) / 10) (show 0 < 10 by omega)
      omega
    have hd3 : s.regs ((op &&& 0x0F00) >>> 8) % 10 ≤ 255 := by
      have := Nat.mod_lt (s.regs ((op &&& 0x0F00) >>> 8)) (show 0 < 10 by omega)
      omega
    exact widthInv_set_mem (widthInv_set_mem (widthInv_set_mem hinv _ _ hd1) _ _ hd2) _ _ hd3
  -- Fx55 LD [I] Vx
  · intro heq
    obtain ⟨hg, rfl⟩ := op_ld_i_some heq.1
    obtain ⟨hI, hregs, hpc, hsp, hstack, hscreen, hdt, hst, hmem_in, hmem_out⟩ :=
      store_loop_spec s ((op &&& 0x0F00) >>> 8)
    obtain ⟨h1, h2, h3, h4, h5, h6, h7, h8, h9⟩ := hinv
    refine ⟨?_, Nat.and_le_right, by rw [hpc]; exact h3, by rw [hsp]; exact h4,
      by rw [hdt]; exact h5, by rw [hst]; exact h6,
      fun i hi => by rw [congrFun hstack i]; exact h7 i hi, ?_,
      fun p hp => by rw [congrFun hscreen p]; exact h9 p hp⟩
    · intro i hi
      rw [congrFun hregs i]
      exact h1 i hi
    · intro a ha
      by_cases hin : ∃ i, i < (op &&& 0x0F00) >>> 8 + 1 ∧ a = s.I + i
      · obtain ⟨i, hi, rfl⟩ := hin
        rw [hmem_in i hi]
        exact h1 i (by omega)
      · push_neg at hin
        rw [hmem_out a (fun i hi => hin i hi)]
        exact h8 a ha
  -- Fx65 LD Vx [I]
  · intro heq
    obtain ⟨hg, rfl⟩ := op_ld_vx_i_some heq
    obtain ⟨hI, hmem, hpc, hsp, hstack, hscreen, hdt, hst, hregs_in, hregs_out⟩ :=
      load_loop_spec s ((op &&& 0x0F00) >>> 8)
    obtain ⟨h1, h2, h3, h4, h5, h6, h7, h8, h9⟩ := hinv
    refine ⟨?_, Nat.and_le_right, by rw [hpc]; exact h3, by rw [hsp]; exact h4,
      by rw [hdt]; exact h5, by rw [hst]; exact h6,
      fun i hi => by rw [congrFun hstack i]; exact h7 i hi,
      fun a ha => by rw [congrFun hmem a]; exact h8 a ha,
      fun p hp => by rw [congrFun hscreen p]; exact h9 p hp⟩
    intro i hi
    by_cases hin : i < (op &&& 0x0F00) >>> 8 + 1
    · rw [hregs_in i hin]
      refine h8 _ ?_
      have hm : Chip8.MEM_SIZE = 4096 := rfl
      omega
    · rw [hregs_out i (fun k hk => by omega)]
      exact h1 i hi

/-- The fresh machine of `Chip8.__init__` satisfies the width invariant. -/
theorem widthInv_init : WidthInv Chip8.init := by
  refine ⟨?_, ?_, ?_, ?_, ?_, ?_, ?_, ?_, ?_⟩
  · intro i _
    show (0 : Nat) ≤ 255
    omega
  · show (0 : Nat) ≤ 0xFFF
    omega
  · show (0x200 : Nat) ≤ 0xFFFF
    omega
  · show (0 : Nat) ≤ 16
    omega
  · show (0 : Nat) ≤ 255
    omega
  · show (0 : Nat) ≤ 255
    omega
  · intro i _
    show (0 : Nat) ≤ 0xFFFF
    omega
  · intro a _
    show (if Chip8.FONT_START ≤ a ∧ a < Chip8.FONT_START + 80 then
        font_data.getD (a - Chip8.FONT_START) 0 else 0) ≤ 255
    split_ifs with hf
    · have hlt : a - Chip8.FONT_START < 80 := by
        have hfs : Chip8.FONT_START = 0x50 := rfl
        omega
      have hall : ∀ k, k < 80 → font_data.getD k 0 ≤ 255 := by decide
      exact hall _ hlt
    · omega
  · intro p _
    exact Or.inl rfl

/-- Witness for C3: the fresh machine satisfies the width invariant, and so
does its state after a CLS instruction. -/
theorem C3_width_invariant_witness : WidthInv (Chip8.op_disp_clear Chip8.init) :=
  C3_width_invariant Chip8.init 0x00E0 widthInv_init
    (Chip8.op_disp_clear Chip8.init) true rfl

/- ----------------------------------------------------------------
   C1: Dxyn base wrap and pixel clipping.
   ---------------------------------------------------------------- -/

theorem drawBit_screen_col63 (u : Chip8) (fy sb b j : Nat)
    (hclip : u.quirk_clipping = true) (hj : j % 64 ≠ 63) :
    (drawBit u 63 fy sb b).screen j = u.screen j := by
  unfold drawBit
  by_cases hbit : (sb >>> (7 - b)) &&& 1 = 1
  · rw [if_pos hbit, if_pos hclip]
    by_cases hb : 63 + b ≥ SCREEN_W
    · rw [if_pos hb]
    · rw [if_neg hb]
      have hb0 : b = 0 := by
        simp only [show SCREEN_W = 64 from rfl] at hb
        omega
      subst hb0
      apply togglePixel_screen_ne
      intro hcontra
      apply hj
      simp only [show SCREEN_W = 64 from rfl] at hcontra
      omega
  · rw [if_neg hbit]

theorem drawRow_screen_col63 (t : Chip8) (fy sb j : Nat)
    (hclip : t.quirk_clipping = true) (hj : j % 64 ≠ 63) :
    (drawRow t 63 fy sb).screen j = t.screen j := by
  unfold drawRow
  have h := foldl_inv (P := fun u => u.quirk_clipping = true ∧ u.screen j = t.screen j)
    (fun u b => drawBit u 63 fy sb b) (List.range 8) ?_ t ⟨hclip, rfl⟩
  · exact h.2
  · intro b _ u hu
    refine ⟨(drawBit_frame u 63 fy sb b).qc_eq.trans hu.1, ?_⟩
    rw [drawBit_screen_col63 u fy sb b j hu.1 hj]
    exact hu.2

theorem drawRows_screen_col63 (by_ i j : Nat) (hj : j % 64 ≠ 63) :
    ∀ k r n t t', n - r = k → t.quirk_clipping = true →
      drawRows 63 by_ i t r n = some t' → t'.screen j = t.screen j := by
  intro k
  induction k with
  | zero =>
    intro r n t t' hk hclip h
    rw [drawRows_zero 63 by_ i t r n (by omega)] at h
    obtain rfl := Option.some.inj h
    rfl
  | succ k ih =>
    intro r n t t' hk hclip h
    have hr : r < n := by omega
    by_cases hmem : i + r < Chip8.MEM_SIZE
    · rw [drawRows_step 63 by_ i t r n hr hmem] at h
      set t1 := (if t.quirk_clipping then
             if by_ + r ≥ Chip8.SCREEN_H then t
             else drawRow t 63 (by_ + r) (t.mem (i + r))
           else drawRow t 63 ((by_ + r) % Chip8.SCREEN_H) (t.mem (i + r))) with ht1
    -- t1 keeps the clipping flag and leaves column j alone
      have hq1 : t1.quirk_clipping = true := by
        rw [ht1]
        split_ifs
        · exact hclip
        · exact (drawRow_frame t _ _ _).qc_eq.trans hclip
      have hs1 : t1.screen j = t.screen j := by
        rw [ht1]
        split_ifs
        · rfl
        · exact drawRow_screen_col63 t _ _ j hclip hj
      rw [ih (r + 1) n t1 t' (by omega) hq1 h, hs1]
    · rw [drawRows_oob 63 by_ i t r n hr hmem] at h
      exact absurd h (by simp)

theorem drawRow_x64_y0 (t : Chip8) (hclip : t.quirk_clipping = true) :
    drawRow t 0 0 0x80 = togglePixel t 0 := by
  unfold drawRow
  rw [show List.range 8 = [0, 1, 2, 3, 4, 5, 6, 7] from rfl]
  simp only [List.foldl]
  have h0 : drawBit t 0 0 0x80 0 = togglePixel t 0 := by
    unfold drawBit
    rw [if_pos (by decide : (0x80 >>> (7 - 0)) &&& 1 = 1), if_pos hclip,
      if_neg (by decide : ¬ (0 + 0 ≥ SCREEN_W))]
    rfl
  rw [h0]
  rfl

/-- C1: with clipping enabled, Dxyn wraps the base coordinates first (a 1-pixel
sprite 0x80 drawn at Vx = 64, Vy = 0 toggles exactly pixel (0,0)), and then
clips per-pixel overflow (a sprite drawn at Vx = 63 never changes any screen
cell outside column 63 — in particular none in column 0). -/
theorem C1_draw_wrap_base_clip_pixels (s : Chip8) (hclip : s.quirk_clipping = true) :
    (∀ x y s', s.regs x = 64 → s.regs y = 0 → s.I < 4096 → s.mem s.I = 0x80 →
      Chip8.op_drw_vx_vy_n s x y 1 = some s' →
      s'.screen 0 = s.screen 0 ^^^ 1 ∧ ∀ j, j ≠ 0 → s'.screen j = s.screen j) ∧
    (∀ x y n s', s.regs x = 63 →
      Chip8.op_drw_vx_vy_n s x y n = some s' →
      ∀ j, j % 64 ≠ 63 → s'.screen j = s.screen j) := by
  constructor
  · intro x y s' hx hy hI hmem h
    unfold op_drw_vx_vy_n at h
    rw [hx, hy] at h
    have hbx : 64 % SCREEN_W = 0 := by decide
    have hby : 0 % SCREEN_H = 0 := by decide
    rw [hbx, hby] at h
    set s0 : Chip8 := { s with regs := upd s.regs 0xF 0 } with hs0
    have hs0clip : s0.quirk_clipping = true := hclip
    have hs0mem : s0.mem (s.I + 0) = 0x80 := by
      show s.mem (s.I + 0) = 0x80
      rw [Nat.add_zero]
      exact hmem
    have hrows : drawRows 0 0 s.I s0 0 1 = some (togglePixel s0 0) := by
      rw [drawRows_step 0 0 s.I s0 0 1 (by omega) (by
        show s.I + 0 < Chip8.MEM_SIZE
        have : Chip8.MEM_SIZE = 4096 := rfl
        omega)]
      rw [if_pos hs0clip, if_neg (by decide : ¬ (0 + 0 ≥ SCREEN_H))]
      rw [hs0mem]
      rw [drawRow_x64_y0 s0 hs0clip]
      exact drawRows_zero _ _ _ _ _ _ (by omega)
    rw [hrows] at h
    simp only [Option.map_some'] at h
    -- s' is the toggled state, possibly with the draw-sync flag set
    have hscreen : s'.screen = (togglePixel s0 0).screen := by
      rw [← Option.some.inj h]
      split_ifs with hq
      · rfl
      · rfl
    have hs0screen : s0.screen = s.screen := rfl
    constructor
    · rw [hscreen]
      unfold togglePixel
      rw [if_pos (by decide : (0 : Nat) < SCREEN_W * SCREEN_H)]
      by_cases hc : s0.screen 0 = 1
      · rw [if_pos hc]
        show upd s0.screen 0 (s0.screen 0 ^^^ 1) 0 = s.screen 0 ^^^ 1
        rw [upd_self]
      · rw [if_neg hc]
        show upd s0.screen 0 (s0.screen 0 ^^^ 1) 0 = s.screen 0 ^^^ 1
        rw [upd_self]
    · intro j hj
      rw [hscreen, togglePixel_screen_ne s0 0 j hj]
  · intro x y n s' hx h
    unfold op_drw_vx_vy_n at h
    rw [hx] at h
    have hbx : 63 % SCREEN_W = 63 := by decide
    rw [hbx] at h
    set s0 : Chip8 := { s with regs := upd s.regs 0xF 0 } with hs0
    have hs0clip : s0.quirk_clipping = true := hclip
    intro j hj
    rcases Option.map_eq_some'.mp h with ⟨t, ht, rfl⟩
    have hts : t.screen j = s0.screen j :=
      drawRows_screen_col63 (s.regs y % SCREEN_H) s.I j hj (n - 0) 0 n s0 t rfl hs0clip ht
    have hfinal : (if t.quirk_display_wait then
        { t with waiting_for_draw_sync := true } else t).screen j = t.screen j := by
      split_ifs <;> rfl
    rw [hfinal, hts]

/-- Witness for C1: a concrete clipping-enabled machine (V0 = 64, V1 = 0,
V2 = 63 on a fresh screen with mem[I] = 0x80 via I = 0x300): part one applied
at x = 0, y = 1 and part two at x = 2. -/
theorem C1_draw_wrap_base_clip_pixels_witness :
    drawState.quirk_clipping = true ∧
    (∀ s', Chip8.op_drw_vx_vy_n drawState 0 1 1 = some s' →
      s'.screen 0 = drawState.screen 0 ^^^ 1 ∧ ∀ j, j ≠ 0 → s'.screen j = drawState.screen j) ∧
    (∀ s', Chip8.op_drw_vx_vy_n drawState 2 1 1 = some s' →
      ∀ j, j % 64 ≠ 63 → s'.screen j = drawState.screen j) := by
  have h := C1_draw_wrap_base_clip_pixels drawState rfl
  refine ⟨rfl, ?_, ?_⟩
  · intro s' hs'
    exact h.1 0 1 s' (by decide) (by decide) (by decide) (by decide) hs'
  · intro s' hs'
    exact h.2 2 1 1 s' (by decide) hs'

/-- Witness for C8: at `regsProfileState` (I = 0x300, V0..V2 = 7, 11, 13) the
round-trip with x = 2 applies. -/
theorem C8_store_load_roundtrip_witness :
    regsProfileState.quirk_load_store = true ∧ (2 : Nat) ≤ 15 ∧
    regsProfileState.I + 2 < 4096 ∧
    ∃ s1 s2, Chip8.op_ld_i_vx regsProfileState 2 = some s1 ∧
      s1.I = (regsProfileState.I + 2 + 1) &&& 0xFFF ∧
      Chip8.op_ld_vx_i { s1 with I := regsProfileState.I } 2 = some s2 ∧
      (∀ i, s2.regs i = regsProfileState.regs i) ∧
      s2.I = (regsProfileState.I + 2 + 1) &&& 0xFFF :=
  ⟨rfl, by decide, by decide,
    C8_store_load_roundtrip regsProfileState 2 rfl (by decide) (by decide)⟩

end Chip8Py
